import Mathlib

/-!
# Kernel monitor (`kern/monitor.c`)

A shallow embedding of the monitor: the commands `showmappings`, `modify`,
`dump`, `backtrace`, `help` and `kerninfo`, the command interpreter `runcmd`
and the loop of `monitor`.

* 32-bit machine words (`uintptr_t`, `pte_t`, `physaddr_t`) are `Nat`, reduced
  modulo `2^32` wherever the C arithmetic can wrap.
* C strings are `List Char` (the characters before the terminating NUL).
* Console output is a list of text segments; their concatenation is the
  character stream written by the successive `cprintf` calls.
* A handler returns `none` when it dereferences a pointer that the argument
  vector does not provide (`argv[i]` with `i ≥ argc` is NULL or uninitialised).
* Memory is a map from addresses to 32-bit words; every address can be loaded
  (a page fault on an unmapped address is not part of the model).
* Loops without a bound in the source (`backtrace`, the parsing loop of
  `runcmd`) take a bound on their iterations and return `none` when it is
  reached.
-/

namespace Monitor

/-! ## Words and page-table-entry layout -/

/-- Modelled from the spec: the width of `uintptr_t`, `pte_t` and `physaddr_t`
(inc/types.h is not part of the sources); the spec fixes a 32-bit target. -/
def WORD : Nat := 2 ^ 32

/-- Modelled from the spec: the Present flag of a page-table entry (inc/mmu.h is
not part of the sources); the flags sit in the low-order bits below the
frame base address, Present being bit 0 on the x86. -/
def PTE_P : Nat := 0x001

/-- Modelled from the spec: the Writable flag of a page-table entry (inc/mmu.h is
not part of the sources), bit 1 on the x86. -/
def PTE_W : Nat := 0x002

/-- Modelled from the spec: the UserAccessible flag of a page-table entry
(inc/mmu.h is not part of the sources), bit 2 on the x86. -/
def PTE_U : Nat := 0x004

/-- The C operator `~` on a 32-bit operand. -/
def bnot32 (x : Nat) : Nat := 0xFFFFFFFF ^^^ x

/-- Modelled from the spec: the macro `PTE_ADDR` (inc/mmu.h is not part of the
sources): the frame base address of an entry, i.e. the entry with the twelve
low-order flag bits of a 4 KiB page masked off. -/
def PTE_ADDR (pte : Nat) : Nat := pte &&& bnot32 0xFFF

/-- Modelled from the spec: the macro `PDX` (inc/mmu.h is not part of the
sources): the top-level index of a virtual address in a two-level table with
4 KiB pages, bits 22..31. -/
def PDX (va : Nat) : Nat := (va >>> 22) &&& 0x3FF

/-- Modelled from the spec: the macro `PTX` (inc/mmu.h is not part of the
sources): the second-level index of a virtual address, bits 12..21. -/
def PTX (va : Nat) : Nat := (va >>> 12) &&& 0x3FF

/-! ## Page directory -/

/-- A second-level table: the entry stored at each second-level index. -/
abbrev PageTable := Nat → Nat

/-- Modelled from the spec: the page directory owned by the memory manager
(kern/pmap.c is not part of the sources): a sequence of top-level slots, each
either absent or pointing to a second-level table of entries. -/
abbrev PageDirectory := Nat → Option PageTable

/-- The location of a page-table entry (a `pte_t *`): top-level index and
second-level index. -/
abbrev EntryRef := Nat × Nat

/-- The entry stored at a given pair of indices, if its table exists. -/
def entryAt (pgdir : PageDirectory) (d t : Nat) : Option Nat :=
  (pgdir d).map (fun pt => pt t)

/-- Reading through an entry pointer, `*entry`. -/
def pte_read (pgdir : PageDirectory) (entry : EntryRef) : Nat :=
  match pgdir entry.1 with
  | some pt => pt entry.2
  | none => 0

/-- Writing through an entry pointer, `*entry = v`. -/
def pte_write (pgdir : PageDirectory) (entry : EntryRef) (v : Nat) : PageDirectory :=
  fun d =>
    if d = entry.1 then
      (pgdir d).map (fun pt => fun t => if t = entry.2 then v else pt t)
    else pgdir d

/-- Modelled from the spec: `pgdir_walk` (kern/pmap.c is not part of the
sources), the page-table accessor `walk(root, va, allocate) -> entryRef|null`:
it locates the second-level table through the top-level index of the address
and answers NULL when that table is absent, otherwise the location of the
entry at the second-level index. The monitor only ever passes `create = 0`,
so allocation is not modelled. -/
def pgdir_walk (pgdir : PageDirectory) (va : Nat) (_create : Bool) : Option EntryRef :=
  match pgdir (PDX va) with
  | none => none
  | some _ => some (PDX va, PTX va)

/-- Modelled from the spec: `page_lookup` (kern/pmap.c is not part of the
sources), the Translator `lookup(root, va) -> (entryRef, frameDescriptor|absent)`:
NotMapped when no second-level table exists or when the Present flag of the
entry is clear (the entry location is still handed back in that case). The
first component is the returned frame descriptor (the frame number), the
second is what is stored through `pte_store`. -/
def page_lookup (pgdir : PageDirectory) (va : Nat) : Option Nat × Option EntryRef :=
  match pgdir_walk pgdir va false with
  | none => (none, none)
  | some entry =>
    if pte_read pgdir entry &&& PTE_P = 0 then (none, some entry)
    else (some (PTE_ADDR (pte_read pgdir entry) >>> 12), some entry)

/-! ## Library routines used by the handlers -/

/-- The value of a character as a digit of `strtol`, if it is one. -/
def digitVal (c : Char) : Option Nat :=
  if '0' ≤ c ∧ c ≤ '9' then some (c.toNat - '0'.toNat)
  else if 'a' ≤ c ∧ c ≤ 'z' then some (c.toNat - 'a'.toNat + 10)
  else if 'A' ≤ c ∧ c ≤ 'Z' then some (c.toNat - 'A'.toNat + 10)
  else none

/-- The digit loop of `strtol`: accumulate digits below the base, stop at the
first other character. -/
def strtolDigits (base : Nat) : List Char → Nat → Nat
  | [], val => val
  | c :: s, val =>
    match digitVal c with
    | some dig => if dig ≥ base then val else strtolDigits base s (val * base + dig)
    | none => val

/-- Skipping the leading blanks and tabs of `strtol`. -/
def skipBlanks : List Char → List Char
  | [] => []
  | c :: s => if c = ' ' ∨ c = '\t' then skipBlanks s else c :: s

/-- Modelled from the spec: `strtol(s, NULL, 16)` (lib/string.c is not part of
the sources) converted to `uintptr_t`; the spec gives the address arguments as
hexadecimal text. Leading blanks, an optional sign and an optional `0x` are
skipped, then hexadecimal digits are accumulated; the result is the 32-bit
word of the (possibly negated) value. -/
def strtol16 (s : List Char) : Nat :=
  let s1 := skipBlanks s
  let (neg, s2) :=
    match s1 with
    | '+' :: r => (false, r)
    | '-' :: r => (true, r)
    | r => (false, r)
  let s3 :=
    match s2 with
    | '0' :: 'x' :: r => r
    | r => r
  let val := strtolDigits 16 s3 0 % WORD
  if neg then (WORD - val) % WORD else val

/-- An argument of a `cprintf` call: a word passed by value, or a pointer to a
string. -/
inductive FmtArg where
  | num (n : Nat)
  | str (s : List Char)

/-- The padding character, field width and precision of a conversion. -/
structure FmtState where
  padc : Char
  width : Int
  precision : Int

/-- The mode of the format scanner: copying text, inside a `%` escape (with the
characters read since the `%`), or inside a run of decimal digits of an escape. -/
inductive FmtMode where
  | text
  | esc (seen : List Char) (st : FmtState)
  | digits (seen : List Char) (acc : Nat) (st : FmtState)

/-- What one character of an escape does. -/
inductive FmtStep where
  | again (st : FmtState) (ap : List FmtArg)
  | number (acc : Nat)
  | emit (out : List Char) (ap : List FmtArg)

/-- The digit characters of `printnum`. -/
def digitChar (d : Nat) : Char :=
  "0123456789abcdef".toList.getD d '?'

/-- The recursion of `printnum`: the more significant digits first (or the
padding when there are none), then the least significant digit. The first
argument bounds the number of digits. -/
def printnumAux : Nat → Nat → Nat → Int → Char → List Char
  | 0, num, base, _, _ => [digitChar (num % base)]
  | fuel + 1, num, base, width, padc =>
    (if num ≥ base then printnumAux fuel (num / base) base (width - 1) padc
     else List.replicate (width - 1).toNat padc) ++ [digitChar (num % base)]

/-- Printing an `unsigned long long` in a base: at most 64 digits. -/
def printnum (num base : Nat) (width : Int) (padc : Char) : List Char :=
  printnumAux 64 num base width padc

/-- Taking the next argument as a word. -/
def nextNum : List FmtArg → Nat × List FmtArg
  | FmtArg.num n :: ap => (n % WORD, ap)
  | _ :: ap => (0, ap)
  | [] => (0, [])

/-- Taking the next argument as a string pointer. -/
def nextStr : List FmtArg → List Char × List FmtArg
  | FmtArg.str s :: ap => (s, ap)
  | _ :: ap => ([], ap)
  | [] => ([], [])

/-- The label `process_precision` of `vprintfmt`. -/
def processPrecision (p : Int) (st : FmtState) : FmtState :=
  if st.width < 0 then { st with width := p, precision := -1 }
  else { st with precision := p }

/-- A word read as a signed `int`. -/
def toInt32 (n : Nat) : Int :=
  if n % WORD < 2 ^ 31 then (n % WORD : Nat) else (n % WORD : Nat) - (WORD : Nat)

/-- The conversion `%s`. -/
def fmtString (p : List Char) (st : FmtState) : List Char :=
  let body := if st.precision < 0 then p else p.take st.precision.toNat
  let room := (st.width - body.length).toNat
  if st.width > 0 ∧ st.padc ≠ '-' then List.replicate room st.padc ++ body
  else body ++ List.replicate room ' '

/-- The `switch` of `vprintfmt` on one character of an escape. -/
def fmtSwitch (seen : List Char) (ch : Char) (st : FmtState) (ap : List FmtArg) : FmtStep :=
  if ch = '-' then FmtStep.again { st with padc := '-' } ap
  else if ch = '0' then FmtStep.again { st with padc := '0' } ap
  else if '1' ≤ ch ∧ ch ≤ '9' then FmtStep.number (ch.toNat - '0'.toNat)
  else if ch = '*' then
    FmtStep.again (processPrecision (toInt32 (nextNum ap).1) st) (nextNum ap).2
  else if ch = '.' then
    FmtStep.again (if st.width < 0 then { st with width := 0 } else st) ap
  else if ch = 'l' then FmtStep.again st ap
  else if ch = 'c' then FmtStep.emit [Char.ofNat (nextNum ap).1] (nextNum ap).2
  else if ch = 's' then FmtStep.emit (fmtString (nextStr ap).1 st) (nextStr ap).2
  else if ch = 'd' then
    (if toInt32 (nextNum ap).1 < 0 then
      FmtStep.emit ('-' :: printnum (toInt32 (nextNum ap).1).natAbs 10 st.width st.padc)
        (nextNum ap).2
    else
      FmtStep.emit (printnum (nextNum ap).1 10 st.width st.padc) (nextNum ap).2)
  else if ch = 'u' then
    FmtStep.emit (printnum (nextNum ap).1 10 st.width st.padc) (nextNum ap).2
  else if ch = 'x' then
    FmtStep.emit (printnum (nextNum ap).1 16 st.width st.padc) (nextNum ap).2
  else if ch = '%' then FmtStep.emit ['%'] ap
  else FmtStep.emit ('%' :: (seen ++ [ch])) ap

/-- Modelled from the spec: `vprintfmt` (lib/printfmt.c is not part of the
sources), the formatter behind `cprintf`; the spec only says that report lines
are rendered as text, and this follows the C convention the format strings of
the monitor are written in. Text is copied through; a `%` starts an escape
made of flags `-` `0`, a width, a precision (`.n` or `*`), `l`, and one of the
conversions `c s d u x %`; any other escape is copied through literally. -/
def vprintfmt : List Char → FmtMode → List FmtArg → List Char
  | [], FmtMode.text, _ => []
  | [], FmtMode.esc seen _, _ => '%' :: seen
  | [], FmtMode.digits seen _ _, _ => '%' :: seen
  | ch :: fmt, FmtMode.text, ap =>
    if ch = '%' then vprintfmt fmt (FmtMode.esc [] ⟨' ', -1, -1⟩) ap
    else ch :: vprintfmt fmt FmtMode.text ap
  | ch :: fmt, FmtMode.esc seen st, ap =>
    match fmtSwitch seen ch st ap with
    | FmtStep.again st1 ap1 => vprintfmt fmt (FmtMode.esc (seen ++ [ch]) st1) ap1
    | FmtStep.number acc => vprintfmt fmt (FmtMode.digits (seen ++ [ch]) acc st) ap
    | FmtStep.emit out ap1 => out ++ vprintfmt fmt FmtMode.text ap1
  | ch :: fmt, FmtMode.digits seen acc st, ap =>
    if '0' ≤ ch ∧ ch ≤ '9' then
      vprintfmt fmt (FmtMode.digits (seen ++ [ch]) (acc * 10 + (ch.toNat - '0'.toNat)) st) ap
    else
      match fmtSwitch seen ch (processPrecision acc st) ap with
      | FmtStep.again st1 ap1 => vprintfmt fmt (FmtMode.esc (seen ++ [ch]) st1) ap1
      | FmtStep.number acc1 => vprintfmt fmt (FmtMode.digits (seen ++ [ch]) acc1 st) ap
      | FmtStep.emit out ap1 => out ++ vprintfmt fmt FmtMode.text ap1

/-- The text written by one `cprintf` call. -/
def cprintf (fmt : String) (ap : List FmtArg) : List Char :=
  vprintfmt fmt.toList FmtMode.text ap

/-- The first character of a C string, `s[0]`: the NUL terminator when the
string is empty. -/
def firstChar (s : List Char) : Char :=
  s.headD (Char.ofNat 0)

/-- The C operator `!` on a word. -/
def lnot (x : Nat) : Nat := if x = 0 then 1 else 0

/-! ## The handlers -/

/-- What a handler does: its return value, the text it writes and the page
directory it leaves. -/
structure MonResult where
  ret : Int
  out : List (List Char)
  pgdir : PageDirectory

/-- The three flag digits of a mapped row, `1-!(*entry&PTE_U)` and so on. -/
def flagArgs (e : Nat) : List FmtArg :=
  [FmtArg.num (1 - lnot (e &&& PTE_U)), FmtArg.num (1 - lnot (e &&& PTE_W)),
   FmtArg.num (1 - lnot (e &&& PTE_P))]

/-- The body of the loop of `mon_showmappings` for one page: the text written
for the virtual address `va`. The entry is read only when a frame descriptor
was returned; a descriptor never comes without the entry location. -/
def showmappings_row (kern_pgdir : PageDirectory) (va : Nat) : List Char :=
  cprintf "   %x   " [FmtArg.num va] ++
  match page_lookup kern_pgdir va with
  | (none, _) =>
    cprintf "       None     " [] ++ cprintf "       None " [] ++
    cprintf "  None" [] ++ cprintf "  None\n" []
  | (some _, none) => []
  | (some _, some entry) =>
    let pa := PTE_ADDR (pte_read kern_pgdir entry)
    cprintf "       x    " [FmtArg.num pa] ++
    cprintf "     %d      %d     %d\n" (flagArgs (pte_read kern_pgdir entry))

/-- The page count of `mon_showmappings`, `((endADDR - startADDR)>>12)&0xFFFFFF`
on 32-bit words. -/
def showmappings_cnt (startADDR endADDR : Nat) : Nat :=
  (((endADDR + WORD - startADDR) % WORD) >>> 12) &&& 0xFFFFFF

/-- The command `showmappings`: `none` is a dereference of a missing argument.
The output is the header followed by one segment per loop iteration. -/
def mon_showmappings (argc : Nat) (argv : List (List Char)) (kern_pgdir : PageDirectory) :
    Option MonResult :=
  if argc < 3 then
    some ⟨-1, [cprintf "Error: not enough parameter\n" []], kern_pgdir⟩
  else
    match argv[1]?, argv[2]? with
    | some a1, some a2 =>
      let startADDR := strtol16 a1
      let endADDR := strtol16 a2
      let cnt := showmappings_cnt startADDR endADDR
      some ⟨0,
        cprintf "     VADDR          PADDR     PTE_U  PTE_W  PTE_P\n" [] ::
          (List.range cnt).map
            (fun i => showmappings_row kern_pgdir ((startADDR + i * 0x1000) % WORD)),
        kern_pgdir⟩
    | _, _ => none

/-- The assignments of `mon_modify` once both tokens are accepted: the new
value of the entry. -/
def modify_entry (opt opnd : Char) (e : Nat) : Nat :=
  if opt = 'c' then
    let e1 := if opnd = 'P' then e &&& bnot32 PTE_P else e
    let e2 := if opnd = 'U' then e1 &&& bnot32 PTE_U else e1
    if opnd = 'W' then e2 &&& bnot32 PTE_W else e2
  else if opt = 's' then
    let e1 := if opnd = 'P' then e ||| PTE_P else e
    let e2 := if opnd = 'U' then e1 ||| PTE_U else e1
    if opnd = 'W' then e2 ||| PTE_W else e2
  else e

/-- The command `modify`: `none` is a dereference of a missing argument. The
arguments are read in the order of the source: the address, then (only when
the walk found an entry) the operation, then (only when the operation is
accepted) the bit. -/
def mon_modify (_argc : Nat) (argv : List (List Char)) (kern_pgdir : PageDirectory) :
    Option MonResult :=
  match argv[1]? with
  | none => none
  | some a1 =>
    let va := strtol16 a1
    match pgdir_walk kern_pgdir va false with
    | none => some ⟨-1, [cprintf "Page table entry not exist!\n" []], kern_pgdir⟩
    | some entry =>
      match argv[2]? with
      | none => none
      | some a2 =>
        let opt := firstChar a2
        if opt ≠ 'c' ∧ opt ≠ 's' then
          some ⟨-1, [cprintf "Error: unknown option" []], kern_pgdir⟩
        else
          match argv[3]? with
          | none => none
          | some a3 =>
            let opnd := firstChar a3
            if opnd ≠ 'P' ∧ opnd ≠ 'U' ∧ opnd ≠ 'W' then
              some ⟨-1, [cprintf "Error: unknown permission bit" []], kern_pgdir⟩
            else
              some ⟨0, [],
                pte_write kern_pgdir entry (modify_entry opt opnd (pte_read kern_pgdir entry))⟩

/-! ## Memory, `dump` and `backtrace` -/

/-- Modelled from the spec: `KERNBASE` (inc/memlayout.h is not part of the
sources), the fixed offset between the physical and the virtual view of the
direct-mapped kernel region, the conventional high-half kernel base. -/
def KERNBASE : Nat := 0xF0000000

/-- Modelled from the spec: the macro `ROUNDUP` (inc/types.h is not part of
the sources): rounding up to the next multiple of `n`, computed on 32-bit
words as "add `n - 1`, then round down". -/
def ROUNDUP (a n : Nat) : Nat :=
  (a % WORD + n - 1) % WORD - (a % WORD + n - 1) % WORD % n

/-- The memory seen by the monitor: the 32-bit word stored at each address. -/
abbrev Memory := Nat → Nat

/-- A word-sized load, `*(uint32_t *) a`. -/
def load (mem : Memory) (a : Nat) : Nat := mem (a % WORD) % WORD

/-- What `dump` does: its return value, the text it writes, and the loads it
performs, in order, as pairs of address and loaded word. -/
structure DumpResult where
  ret : Int
  out : List (List Char)
  reads : List (Nat × Nat)

/-- The endpoints of `mon_dump` after the translation of a physical origin and
the rounding. -/
def dump_range (type : Char) (startADDR endADDR : Nat) : Nat × Nat :=
  let s1 := if type = 'P' then (startADDR + KERNBASE) % WORD else startADDR
  let e1 := if type = 'P' then (endADDR + KERNBASE) % WORD else endADDR
  (ROUNDUP s1 4, ROUNDUP e1 4)

/-- The word count of `mon_dump`, `(endADDR - startADDR)>>2` on 32-bit words. -/
def dump_cnt (startADDR endADDR : Nat) : Nat :=
  ((endADDR + WORD - startADDR) % WORD) >>> 2

/-- The pointer `(void **)startADDR + i`. -/
def dump_va (startADDR i : Nat) : Nat := (startADDR + 4 * i) % WORD

/-- The command `dump`: `none` is a dereference of a missing argument. The
output is the summary line followed by one segment per loop iteration. -/
def mon_dump (argc : Nat) (argv : List (List Char)) (mem : Memory) : Option DumpResult :=
  if argc < 4 then
    some ⟨-1, [cprintf "usage: mem [VA/PA(start)]  [VA/PA(end)] P|V \n" []], []⟩
  else
    match argv[1]?, argv[2]?, argv[3]? with
    | some a1, some a2, some a3 =>
      let type := firstChar a3
      if type ≠ 'P' ∧ type ≠ 'V' then
        some ⟨-1, [cprintf "usage: mem [VA/PA(start)]  [VA/PA(end)] P|V \n" []], []⟩
      else
        let startADDR := (dump_range type (strtol16 a1) (strtol16 a2)).1
        let endADDR := (dump_range type (strtol16 a1) (strtol16 a2)).2
        let cnt := dump_cnt startADDR endADDR
        some ⟨0,
          cprintf "startADDR: x endADDR:x cnt:%d\n"
              [FmtArg.num startADDR, FmtArg.num endADDR, FmtArg.num cnt] ::
            (List.range cnt).map (fun i =>
              cprintf "[x]:x\n"
                [FmtArg.num (dump_va startADDR i), FmtArg.num (load mem (dump_va startADDR i))]),
          (List.range cnt).map (fun i =>
            (dump_va startADDR i, load mem (dump_va startADDR i)))⟩
    | _, _, _ => none

/-- The record filled by the symbol resolver `debuginfo_eip`. -/
structure Eipdebuginfo where
  eip_file : List Char
  eip_line : Nat
  eip_fn_name : List Char
  eip_fn_namelen : Nat
  eip_fn_addr : Nat

/-- The word `ebp[i]`. -/
def frameWord (mem : Memory) (ebp i : Nat) : Nat := load mem (ebp + 4 * i)

/-- The frame line of one iteration of `mon_backtrace`. -/
def backtrace_frame (mem : Memory) (ebp : Nat) : List Char :=
  cprintf "ebp %08x " [FmtArg.num ebp] ++
  cprintf "eip %08x args" [FmtArg.num (frameWord mem ebp 1)] ++
  cprintf " %08x" [FmtArg.num (frameWord mem ebp 2)] ++
  cprintf " %08x" [FmtArg.num (frameWord mem ebp 3)] ++
  cprintf " %08x" [FmtArg.num (frameWord mem ebp 4)] ++
  cprintf " %08x" [FmtArg.num (frameWord mem ebp 5)] ++
  cprintf " %08x" [FmtArg.num (frameWord mem ebp 6)] ++
  cprintf "\n" []

/-- The symbol line of one iteration of `mon_backtrace`, for the return
address `eip`. -/
def backtrace_symbol (debuginfo_eip : Nat → Eipdebuginfo) (eip : Nat) : List Char :=
  cprintf "\t%s:%d: %.*s+%d\n"
    [FmtArg.str (debuginfo_eip eip).eip_file, FmtArg.num (debuginfo_eip eip).eip_line,
     FmtArg.num (debuginfo_eip eip).eip_fn_namelen, FmtArg.str (debuginfo_eip eip).eip_fn_name,
     FmtArg.num ((eip + WORD - (debuginfo_eip eip).eip_fn_addr % WORD) % WORD)]

/-- The loop `while (ebp) ...` of `mon_backtrace`; the first argument bounds the
number of iterations, and `none` means that the bound was reached with a
non-zero frame pointer. Each iteration writes a frame line and a symbol line,
then follows the saved frame pointer. -/
def backtrace_loop (debuginfo_eip : Nat → Eipdebuginfo) (mem : Memory) :
    Nat → Nat → Option (List (List Char))
  | 0, ebp => if ebp = 0 then some [] else none
  | fuel + 1, ebp =>
    if ebp = 0 then some []
    else
      (backtrace_loop debuginfo_eip mem fuel (load mem ebp)).map
        (fun rest =>
          backtrace_frame mem ebp ::
            backtrace_symbol debuginfo_eip (frameWord mem ebp 1) :: rest)

/-- The command `backtrace`, started from the frame pointer returned by
`read_ebp()`: the return value and the text written, when the loop ends within
the bound. -/
def mon_backtrace (fuel : Nat) (debuginfo_eip : Nat → Eipdebuginfo) (mem : Memory)
    (read_ebp : Nat) : Option (Int × List (List Char)) :=
  (backtrace_loop debuginfo_eip mem fuel (read_ebp % WORD)).map
    (fun lines => (0, cprintf "Stack backtrace:\n" [] :: lines))

/-! ## The command table, `runcmd` and `monitor` -/

/-- The linker symbols printed by `kerninfo`. -/
structure KernelSymbols where
  _start : Nat
  entry : Nat
  etext : Nat
  edata : Nat
  kend : Nat

/-- What the handlers work on: the page directory, the memory and the linker
symbols of the kernel. -/
structure Machine where
  kern_pgdir : PageDirectory
  mem : Memory
  syms : KernelSymbols

/-- An entry of the command table. -/
structure Command where
  name : List Char
  desc : List Char
  func : Nat → List (List Char) → Machine → Option MonResult

/-- A signed `int` as a 32-bit word. -/
def ofInt32 (x : Int) : Nat := (x % (WORD : Int)).toNat

/-- The command `help`, printing the name and description of every entry of
the table. -/
def mon_help (table : List (List Char × List Char)) (kern_pgdir : PageDirectory) : MonResult :=
  ⟨0, table.map (fun c => cprintf "%s - %s\n" [FmtArg.str c.1, FmtArg.str c.2]), kern_pgdir⟩

/-- The command `kerninfo`. -/
def mon_kerninfo (syms : KernelSymbols) (kern_pgdir : PageDirectory) : MonResult :=
  ⟨0,
    [cprintf "Special kernel symbols:\n" [],
     cprintf "  _start                  %08x (phys)\n" [FmtArg.num syms._start],
     cprintf "  entry  %08x (virt)  %08x (phys)\n"
       [FmtArg.num syms.entry, FmtArg.num ((syms.entry + WORD - KERNBASE) % WORD)],
     cprintf "  etext  %08x (virt)  %08x (phys)\n"
       [FmtArg.num syms.etext, FmtArg.num ((syms.etext + WORD - KERNBASE) % WORD)],
     cprintf "  edata  %08x (virt)  %08x (phys)\n"
       [FmtArg.num syms.edata, FmtArg.num ((syms.edata + WORD - KERNBASE) % WORD)],
     cprintf "  end    %08x (virt)  %08x (phys)\n"
       [FmtArg.num syms.kend, FmtArg.num ((syms.kend + WORD - KERNBASE) % WORD)],
     cprintf "Kernel executable memory footprint: %dKB\n"
       [FmtArg.num (ofInt32 (Int.tdiv
          (toInt32 (ROUNDUP ((syms.kend % WORD + WORD - syms.entry % WORD) % WORD) 1024)) 1024))]],
    kern_pgdir⟩

/-- The names and descriptions of the table `commands`. -/
def commandInfo : List (List Char × List Char) :=
  [("help".toList, "Display this list of commands".toList),
   ("kerninfo".toList, "Display information about the kernel".toList),
   ("showmappings".toList, "Display physical page mappings".toList),
   ("modify".toList, "Modify permission bits".toList),
   ("dump".toList, "dump the contents of a range VA/PA address range ".toList)]

/-- The handler `mon_help` as an entry of the table. -/
def help_func (_argc : Nat) (_argv : List (List Char)) (m : Machine) : Option MonResult :=
  some (mon_help commandInfo m.kern_pgdir)

/-- The handler `mon_kerninfo` as an entry of the table. -/
def kerninfo_func (_argc : Nat) (_argv : List (List Char)) (m : Machine) : Option MonResult :=
  some (mon_kerninfo m.syms m.kern_pgdir)

/-- The handler `mon_showmappings` as an entry of the table. -/
def showmappings_func (argc : Nat) (argv : List (List Char)) (m : Machine) : Option MonResult :=
  mon_showmappings argc argv m.kern_pgdir

/-- The handler `mon_modify` as an entry of the table. -/
def modify_func (argc : Nat) (argv : List (List Char)) (m : Machine) : Option MonResult :=
  mon_modify argc argv m.kern_pgdir

/-- The handler `mon_dump` as an entry of the table; it leaves the page
directory as it is. -/
def dump_func (argc : Nat) (argv : List (List Char)) (m : Machine) : Option MonResult :=
  (mon_dump argc argv m.mem).map (fun r => ⟨r.ret, r.out, m.kern_pgdir⟩)

/-- The table `commands`. -/
def commands : List Command :=
  [⟨"help".toList, "Display this list of commands".toList, help_func⟩,
   ⟨"kerninfo".toList, "Display information about the kernel".toList, kerninfo_func⟩,
   ⟨"showmappings".toList, "Display physical page mappings".toList, showmappings_func⟩,
   ⟨"modify".toList, "Modify permission bits".toList, modify_func⟩,
   ⟨"dump".toList, "dump the contents of a range VA/PA address range ".toList, dump_func⟩]

/-- The characters of `WHITESPACE`. -/
def WHITESPACE : List Char := "\t\r\n ".toList

/-- The bound `MAXARGS`. -/
def MAXARGS : Nat := 16

/-- Modelled from the spec: `strchr(s, c) != NULL` for a character `c` other
than NUL (lib/string.c is not part of the sources): whether `c` occurs in `s`. -/
def strchr (s : List Char) (c : Char) : Bool := s.contains c

/-- Modelled from the spec: `strcmp` (lib/string.c is not part of the sources),
by which the dispatcher compares a token with a command name: zero when the
strings are equal, otherwise the difference of the first two characters that
differ, the terminator counting as zero. -/
def strcmp : List Char → List Char → Int
  | [], [] => 0
  | [], d :: _ => -(d.toNat : Int)
  | c :: _, [] => (c.toNat : Int)
  | c :: p, d :: q => if c = d then strcmp p q else (c.toNat : Int) - (d.toNat : Int)

/-- How the parsing loop of `runcmd` ends. -/
inductive ParseResult where
  | tooMany
  | args (argv : List (List Char))

/-- The parsing loop of `runcmd`. Each iteration gobbles whitespace, stops at
the end of the buffer, gives up when `argc` is already `MAXARGS-1`, and
otherwise saves the next argument and scans past it. An argument ends where
the next gobbling writes a NUL, that is at the first whitespace character
after its start. The first argument bounds the number of iterations (`none`
when it is reached). -/
def parseArgs : Nat → List Char → List (List Char) → Option ParseResult
  | 0, _, _ => none
  | fuel + 1, buf, argv =>
    match buf.dropWhile (fun c => strchr WHITESPACE c) with
    | [] => some (ParseResult.args argv)
    | c :: rest =>
      if argv.length = MAXARGS - 1 then some ParseResult.tooMany
      else
        parseArgs fuel ((c :: rest).dropWhile (fun x => !strchr WHITESPACE x))
          (argv ++ [(c :: rest).takeWhile (fun x => !strchr WHITESPACE x)])

/-- The lookup loop of `runcmd` over a table: the first entry whose name
compares equal to `argv[0]` is invoked; when there is none the command is
reported as unknown. -/
def lookup (m : Machine) (argv : List (List Char)) : List Command → Option MonResult
  | [] =>
    some ⟨0, [cprintf "Unknown command '%s'\n" [FmtArg.str (argv.headD [])]], m.kern_pgdir⟩
  | c :: cs =>
    if strcmp (argv.headD []) c.name = 0 then c.func argv.length argv m
    else lookup m argv cs

/-- The function `runcmd` on a command buffer. Every iteration of the parsing
loop consumes at least one character, so the length of the buffer plus one
bounds it. -/
def runcmd (buf : List Char) (m : Machine) : Option MonResult :=
  match parseArgs (buf.length + 1) buf [] with
  | none => none
  | some ParseResult.tooMany =>
    some ⟨0, [cprintf "Too many arguments (max %d)\n" [FmtArg.num MAXARGS]], m.kern_pgdir⟩
  | some (ParseResult.args argv) =>
    if argv.length = 0 then some ⟨0, [], m.kern_pgdir⟩
    else lookup m argv commands

/-- What `monitor` has done when it stops: the text written, the page
directory, the lines not read, and whether the loop was left by `break`
(otherwise it waits for more input). -/
structure MonitorResult where
  out : List (List Char)
  pgdir : PageDirectory
  unread : List (Option (List Char))
  exited : Bool

/-- The loop of `monitor` over the successive results of `readline` (`none` is
a NULL result): it stops at the first command whose result is negative. -/
def monitor_loop (mem : Memory) (syms : KernelSymbols) :
    List (Option (List Char)) → PageDirectory → Option MonitorResult
  | [], pgdir => some ⟨[], pgdir, [], false⟩
  | none :: lines, pgdir => monitor_loop mem syms lines pgdir
  | some buf :: lines, pgdir =>
    match runcmd buf ⟨pgdir, mem, syms⟩ with
    | none => none
    | some r =>
      if r.ret < 0 then some ⟨r.out, r.pgdir, lines, true⟩
      else
        (monitor_loop mem syms lines r.pgdir).map
          (fun t => ⟨r.out ++ t.out, t.pgdir, t.unread, t.exited⟩)

/-- The function `monitor`: the two welcome lines, then the loop. -/
def monitor (lines : List (Option (List Char))) (m : Machine) : Option MonitorResult :=
  (monitor_loop m.mem m.syms lines m.kern_pgdir).map
    (fun t =>
      ⟨cprintf "Welcome to the JOS kernel monitor!\n" [] ::
        cprintf "Type 'help' for a list of commands.\n" [] :: t.out,
       t.pgdir, t.unread, t.exited⟩)

/-! ## Vocabulary of the statements -/

/-- The flag mask named by a bit token of `modify`. -/
def flagMask (opnd : Char) : Nat :=
  if opnd = 'P' then PTE_P else if opnd = 'U' then PTE_U else PTE_W

/-- The position of the flag named by a bit token of `modify`. -/
def flagBit (opnd : Char) : Nat :=
  if opnd = 'P' then 0 else if opnd = 'U' then 2 else 1

/-- A page directory with one second-level table, at top-level index 0, whose
entry for the page at `0x1000` is `e` and whose other entries are zero. -/
def pgdirOnePage (e : Nat) : PageDirectory :=
  fun d => if d = 0 then some (fun t => if t = 1 then e else 0) else none

/-- The command line `modify <va> <op> <bit>` as an argument vector. -/
def modifyArgv (va op bit : String) : List (List Char) :=
  ["modify".toList, va.toList, op.toList, bit.toList]

/-- The header line of `showmappings`. -/
def showmappingsHeader : List Char :=
  cprintf "     VADDR          PADDR     PTE_U  PTE_W  PTE_P\n" []

/-- The virtual-address field of a row, as `mon_showmappings` writes it. -/
def vaField (va : Nat) : List Char :=
  cprintf "   %x   " [FmtArg.num va]

/-- The physical-address field of a mapped row, as `mon_showmappings` writes
it for the frame base address `pa`. -/
def paddrField (pa : Nat) : List Char :=
  cprintf "       x    " [FmtArg.num pa]

/-- The digit of a flag: `1` when the bit of `mask` is set in `e`, else `0`. -/
def flagDigit (e mask : Nat) : Char :=
  if e &&& mask = 0 then '0' else '1'

/-- A mapped row: address field, physical-address field, then the three digits
in the order User, Writable, Present. -/
def mappedRowText (va pa : Nat) (u w p : Char) : List Char :=
  vaField va ++ paddrField pa ++
    ("     ".toList ++ [u] ++ "      ".toList ++ [w] ++ "     ".toList ++ [p] ++ "\n".toList)

/-- The placeholder row of an unmapped page: address field, then None for the
physical address and for each of the three flags. -/
def unmappedRowText (va : Nat) : List Char :=
  vaField va ++ "       None            None   None  None\n".toList

/-- A page directory with one second-level table, at top-level index 0, whose
entry for the page at `0` is `e` and whose other entries are zero. -/
def pgdirFirstPage (e : Nat) : PageDirectory :=
  fun d => if d = 0 then some (fun t => if t = 0 then e else 0) else none

/-- A page directory with one second-level table, at top-level index 0, whose
entries for the pages at `0x1000` and `0x2000` are `e1` and `e2` and whose
other entries are zero. -/
def pgdirTwoPages (e1 e2 : Nat) : PageDirectory :=
  fun d => if d = 0 then some (fun t => if t = 1 then e1 else if t = 2 then e2 else 0) else none

/-- The command line `showmappings <start> <end>` as an argument vector. -/
def showmappingsArgv (startVA endVA : String) : List (List Char) :=
  ["showmappings".toList, startVA.toList, endVA.toList]

/-- A memory in which every word is zero except the one at `0x1000`, which is
`w`. -/
def memOneWord (w : Nat) : Memory := fun a => if a = 0x1000 then w else 0

/-- A machine whose page directory maps the page at `0x1000` by the entry
`0x2007`, whose memory holds `0xdeadbeef` at `0x1000`, with the linker symbols
of a small kernel. -/
def machineOnePage : Machine :=
  ⟨pgdirOnePage 0x2007, memOneWord 0xdeadbeef,
    ⟨0x10000c, 0xf010000c, 0xf0101a75, 0xf0112300, 0xf0112960⟩⟩

/-- What can be observed of a result of `runcmd`: the return value, the text
and the entry of the page at `0x1000`. -/
def observe (r : Option MonResult) : Option (Int × List String × Option Nat) :=
  r.map (fun x => (x.ret, x.out.map String.mk, entryAt x.pgdir 0 1))

/-- The usage message of `dump`. -/
def dumpUsage : List Char :=
  cprintf "usage: mem [VA/PA(start)]  [VA/PA(end)] P|V \n" []

/-- The 32-bit word that the memory holds at the byte address `a`, the address
being taken as a 32-bit word. -/
def storedWord (mem : Memory) (a : Nat) : Nat := mem (a % 2 ^ 32) % 2 ^ 32

/-- The k-th frame pointer of the chain of saved frame pointers that starts
at `fp0`: each one is the word stored at the previous one. -/
def framePointer (mem : Memory) (fp0 : Nat) : Nat → Nat
  | 0 => fp0 % 2 ^ 32
  | k + 1 => storedWord mem (framePointer mem fp0 k)

/-- A word written as eight hexadecimal digits, as `%08x` does. -/
def hex8 (x : Nat) : List Char := printnum (x % WORD) 16 8 '0'

/-- Whether a character is one of tab, carriage return, newline and space. -/
def isWhitespace (c : Char) : Bool :=
  c = '\t' || c = '\r' || c = '\n' || c = ' '

/-- The maximal runs of non-whitespace characters of a line, in order: the
pieces between whitespace characters that are not empty. -/
def tokens (line : List Char) : List (List Char) :=
  (line.splitOnP isWhitespace).filter (fun t => !t.isEmpty)

/-- The text of a frame line: the frame pointer, the return address and the
five argument words, each as eight hexadecimal digits. -/
def frameLineText (fp eip a2 a3 a4 a5 a6 : Nat) : List Char :=
  "ebp ".toList ++ hex8 fp ++ " eip ".toList ++ hex8 eip ++ " args".toList ++
    " ".toList ++ hex8 a2 ++ " ".toList ++ hex8 a3 ++ " ".toList ++ hex8 a4 ++
    " ".toList ++ hex8 a5 ++ " ".toList ++ hex8 a6 ++ "\n".toList

/-- A memory holding two frames: the frame at `0x2000` saves the frame pointer
`0x1000` and the return address `0xf0100456`, the frame at `0x1000` saves a
null frame pointer and the return address `0xf0100123`; every other word
holds its own address. -/
def memTwoFrames : Memory :=
  fun a =>
    if a = 0x1000 then 0 else if a = 0x1004 then 0xf0100123
    else if a = 0x2000 then 0x1000 else if a = 0x2004 then 0xf0100456 else a

/-- A symbol resolver that answers the same record for every address. -/
def resolverConst : Nat → Eipdebuginfo :=
  fun _ => ⟨"kern/init.c".toList, 24, "test_backtrace".toList, 14, 0xf0100040⟩

/-! ## Bits of a word -/

theorem testBit_bnot32_two_pow (k i : Nat) (hk : k < 32) :
    (bnot32 (2 ^ k)).testBit i = (decide (i < 32) && !decide (i = k)) := by
  have h : (0xFFFFFFFF : Nat) = 2 ^ 32 - 1 := by norm_num
  unfold bnot32
  rw [h, Nat.testBit_xor, Nat.testBit_two_pow_sub_one, Nat.testBit_two_pow]
  by_cases hik : i = k
  · subst hik; simp [hk]
  · have hki : ¬ k = i := fun h => hik h.symm
    simp [hik, hki]

theorem testBit_bnot32_low (i : Nat) :
    (bnot32 0xFFF).testBit i = (decide (i < 32) && !decide (i < 12)) := by
  have h : (0xFFFFFFFF : Nat) = 2 ^ 32 - 1 := by norm_num
  have h2 : (0xFFF : Nat) = 2 ^ 12 - 1 := by norm_num
  unfold bnot32
  rw [h, h2, Nat.testBit_xor, Nat.testBit_two_pow_sub_one, Nat.testBit_two_pow_sub_one]
  by_cases h12 : i < 12
  · have h32 : i < 32 := by omega
    simp [h12, h32]
  · simp [h12]

theorem testBit_word_high (e i : Nat) (he : e < WORD) (hi : 32 ≤ i) :
    e.testBit i = false := by
  apply Nat.testBit_lt_two_pow
  calc e < 2 ^ 32 := he
    _ ≤ 2 ^ i := Nat.pow_le_pow_right (by norm_num) hi

theorem testBit_clear (e k i : Nat) (he : e < WORD) (hk : k < 32) :
    (e &&& bnot32 (2 ^ k)).testBit i = if i = k then false else e.testBit i := by
  rw [Nat.testBit_and, testBit_bnot32_two_pow k i hk]
  by_cases hik : i = k
  · simp [hik]
  · by_cases h32 : i < 32
    · simp [hik, h32]
    · simp [hik, h32, testBit_word_high e i he (by omega)]

theorem testBit_set (e k i : Nat) :
    (e ||| 2 ^ k).testBit i = if i = k then true else e.testBit i := by
  rw [Nat.testBit_or, Nat.testBit_two_pow]
  by_cases hik : i = k
  · simp [hik]
  · have hki : ¬ k = i := fun h => hik h.symm
    simp [hik, hki]

theorem PTE_ADDR_eq_of_high_bits (x y : Nat) (h : ∀ i, 12 ≤ i → x.testBit i = y.testBit i) :
    PTE_ADDR x = PTE_ADDR y := by
  apply Nat.eq_of_testBit_eq
  intro i
  unfold PTE_ADDR
  rw [Nat.testBit_and, Nat.testBit_and, testBit_bnot32_low]
  by_cases h12 : i < 12
  · simp [h12]
  · rw [h i (by omega)]

theorem flagMask_eq_two_pow (opnd : Char) : flagMask opnd = 2 ^ flagBit opnd := by
  unfold flagMask flagBit PTE_P PTE_U PTE_W
  by_cases hP : opnd = 'P'
  · simp [hP]
  · by_cases hU : opnd = 'U'
    · simp [hU]
    · simp [hP, hU]

theorem flagBit_lt (opnd : Char) : flagBit opnd < 3 := by
  unfold flagBit
  split
  · omega
  · split <;> omega

/-! ## The assignments of `modify` -/

theorem modify_entry_clear (opnd : Char) (e : Nat)
    (hopnd : opnd = 'P' ∨ opnd = 'U' ∨ opnd = 'W') :
    modify_entry 'c' opnd e = e &&& bnot32 (flagMask opnd) := by
  rcases hopnd with h | h | h <;> subst h <;> simp [modify_entry, flagMask]

theorem modify_entry_set (opnd : Char) (e : Nat)
    (hopnd : opnd = 'P' ∨ opnd = 'U' ∨ opnd = 'W') :
    modify_entry 's' opnd e = e ||| flagMask opnd := by
  rcases hopnd with h | h | h <;> subst h <;> simp [modify_entry, flagMask]

theorem modify_entry_testBit (opt opnd : Char) (e i : Nat) (he : e < WORD)
    (hopt : opt = 'c' ∨ opt = 's') (hopnd : opnd = 'P' ∨ opnd = 'U' ∨ opnd = 'W') :
    (modify_entry opt opnd e).testBit i =
      if i = flagBit opnd then decide (opt = 's') else e.testBit i := by
  have hk : flagBit opnd < 32 := lt_trans (flagBit_lt opnd) (by norm_num)
  rcases hopt with h | h <;> subst h
  · rw [modify_entry_clear opnd e hopnd, flagMask_eq_two_pow, testBit_clear e _ i he hk]
    simp
  · rw [modify_entry_set opnd e hopnd, flagMask_eq_two_pow, testBit_set]
    simp

theorem modify_entry_lt (opt opnd : Char) (e : Nat) (he : e < WORD)
    (hopt : opt = 'c' ∨ opt = 's') (hopnd : opnd = 'P' ∨ opnd = 'U' ∨ opnd = 'W') :
    modify_entry opt opnd e < WORD := by
  apply Nat.lt_pow_two_of_testBit
  intro i hi
  rw [modify_entry_testBit opt opnd e i he hopt hopnd]
  have h3 := flagBit_lt opnd
  have hne : ¬ i = flagBit opnd := by omega
  simp [hne, testBit_word_high e i he hi]

/-! ## Entry pointers -/

theorem pgdir_walk_table (pgdir : PageDirectory) (va : Nat) (create : Bool) (entry : EntryRef)
    (h : pgdir_walk pgdir va create = some entry) :
    entry = (PDX va, PTX va) ∧ ∃ pt, pgdir entry.1 = some pt := by
  unfold pgdir_walk at h
  cases hpd : pgdir (PDX va) with
  | none => simp [hpd] at h
  | some pt =>
    simp [hpd] at h
    subst h
    exact ⟨rfl, pt, hpd⟩

theorem pte_read_write_same (pgdir : PageDirectory) (entry : EntryRef) (v : Nat)
    (h : ∃ pt, pgdir entry.1 = some pt) :
    pte_read (pte_write pgdir entry v) entry = v := by
  obtain ⟨pt, hpt⟩ := h
  simp [pte_read, pte_write, hpt]

theorem entryAt_write_other (pgdir : PageDirectory) (entry : EntryRef) (v d t : Nat)
    (h : (d, t) ≠ entry) :
    entryAt (pte_write pgdir entry v) d t = entryAt pgdir d t := by
  unfold entryAt pte_write
  by_cases hd : d = entry.1
  · have ht : ¬ t = entry.2 := by
      intro ht
      apply h
      subst hd; subst ht
      rfl
    simp only [hd, if_true]
    cases pgdir entry.1 <;> simp [ht]
  · simp [hd]

theorem table_write (pgdir : PageDirectory) (entry : EntryRef) (v d : Nat) :
    (pte_write pgdir entry v d).isSome = (pgdir d).isSome := by
  unfold pte_write
  by_cases hd : d = entry.1
  · simp only [hd, if_true]
    cases pgdir entry.1 <;> simp
  · simp [hd]

theorem entryAt_eq_read (pgdir : PageDirectory) (entry : EntryRef)
    (h : ∃ pt, pgdir entry.1 = some pt) :
    entryAt pgdir entry.1 entry.2 = some (pte_read pgdir entry) := by
  obtain ⟨pt, hpt⟩ := h
  simp [entryAt, pte_read, hpt]

/-- The successful path of `modify`: with an entry found by the walk and both
tokens accepted, the handler returns 0, prints nothing and stores the patched
entry. -/
theorem mon_modify_success (argc : Nat) (argv : List (List Char)) (kern_pgdir : PageDirectory)
    (a1 a2 a3 : List Char) (entry : EntryRef)
    (h1 : argv[1]? = some a1) (h2 : argv[2]? = some a2) (h3 : argv[3]? = some a3)
    (hwalk : pgdir_walk kern_pgdir (strtol16 a1) false = some entry)
    (hopt : firstChar a2 = 'c' ∨ firstChar a2 = 's')
    (hopnd : firstChar a3 = 'P' ∨ firstChar a3 = 'U' ∨ firstChar a3 = 'W') :
    mon_modify argc argv kern_pgdir =
      some ⟨0, [], pte_write kern_pgdir entry
        (modify_entry (firstChar a2) (firstChar a3) (pte_read kern_pgdir entry))⟩ := by
  have hopt1 : ¬ (firstChar a2 ≠ 'c' ∧ firstChar a2 ≠ 's') := by
    rcases hopt with h | h <;> simp [h]
  have hopnd1 : ¬ (firstChar a3 ≠ 'P' ∧ firstChar a3 ≠ 'U' ∧ firstChar a3 ≠ 'W') := by
    rcases hopnd with h | h | h <;> simp [h]
  unfold mon_modify
  simp only [h1, h2, h3, hwalk, hopt1, hopnd1, if_false]

theorem and_two_pow_eq_zero_iff (e k : Nat) : e &&& 2 ^ k = 0 ↔ e.testBit k = false := by
  constructor
  · intro h
    have hk : (e &&& 2 ^ k).testBit k = false := by rw [h]; exact Nat.zero_testBit k
    rw [Nat.testBit_and, Nat.testBit_two_pow_self] at hk
    simpa using hk
  · intro h
    apply Nat.eq_of_testBit_eq
    intro i
    rw [Nat.testBit_and, Nat.testBit_two_pow, Nat.zero_testBit]
    by_cases hki : k = i
    · subst hki; simp [h]
    · simp [hki]

theorem modify_entry_twice (opt opnd : Char) (e : Nat) (he : e < WORD)
    (hopt : opt = 'c' ∨ opt = 's') (hopnd : opnd = 'P' ∨ opnd = 'U' ∨ opnd = 'W') :
    modify_entry opt opnd (modify_entry opt opnd e) = modify_entry opt opnd e := by
  apply Nat.eq_of_testBit_eq
  intro i
  rw [modify_entry_testBit opt opnd _ i (modify_entry_lt opt opnd e he hopt hopnd) hopt hopnd,
    modify_entry_testBit opt opnd e i he hopt hopnd]
  by_cases hi : i = flagBit opnd <;> simp [hi]

theorem modify_entry_same (opt opnd : Char) (e : Nat) (he : e < WORD)
    (hopt : opt = 'c' ∨ opt = 's') (hopnd : opnd = 'P' ∨ opnd = 'U' ∨ opnd = 'W')
    (hbit : e.testBit (flagBit opnd) = decide (opt = 's')) :
    modify_entry opt opnd e = e := by
  apply Nat.eq_of_testBit_eq
  intro i
  rw [modify_entry_testBit opt opnd e i he hopt hopnd]
  by_cases hi : i = flagBit opnd
  · simp [hi, hbit]
  · simp [hi]

theorem pte_write_read_self (pgdir : PageDirectory) (entry : EntryRef) :
    pte_write pgdir entry (pte_read pgdir entry) = pgdir := by
  funext d
  unfold pte_write pte_read
  by_cases hd : d = entry.1
  · subst hd
    cases hpt : pgdir entry.1 with
    | none => simp
    | some pt =>
      simp only [if_true, Option.map_some']
      congr 1
      funext t
      by_cases ht : t = entry.2 <;> simp [ht]
  · simp [hd]

theorem pte_write_twice (pgdir : PageDirectory) (entry : EntryRef) (v w : Nat) :
    pte_write (pte_write pgdir entry v) entry w = pte_write pgdir entry w := by
  funext d
  unfold pte_write
  by_cases hd : d = entry.1
  · subst hd
    cases hpt : pgdir entry.1 with
    | none => simp
    | some pt =>
      simp only [if_true, Option.map_some']
      congr 1
      funext t
      by_cases ht : t = entry.2 <;> simp [ht]
  · simp [hd]

theorem pgdir_walk_write (pgdir : PageDirectory) (entry : EntryRef) (v va : Nat) (create : Bool) :
    pgdir_walk (pte_write pgdir entry v) va create = pgdir_walk pgdir va create := by
  have h := table_write pgdir entry v (PDX va)
  unfold pgdir_walk
  cases h1 : pte_write pgdir entry v (PDX va) <;> cases h2 : pgdir (PDX va) <;>
    simp [h1, h2] at h ⊢

/-! ## Claims -/

/-- C1: when the walk finds an entry with value `e` and the tokens name an
operation in c/s and a bit in P/U/W, `modify` succeeds (returns 0) and the
entry becomes `e` with exactly the named flag bit forced to 0 (c) or 1 (s):
the named mask is a single bit, every other bit of the entry is the bit of
`e`, the frame base address is that of `e`, and no other page-table entry and
no table slot changes. -/
theorem modify_patches_exactly_named_bit (argc : Nat) (argv : List (List Char))
    (kern_pgdir : PageDirectory) (a1 a2 a3 : List Char) (entry : EntryRef) (e : Nat)
    (h1 : argv[1]? = some a1) (h2 : argv[2]? = some a2) (h3 : argv[3]? = some a3)
    (hwalk : pgdir_walk kern_pgdir (strtol16 a1) false = some entry)
    (he : pte_read kern_pgdir entry = e) (hword : e < WORD)
    (hopt : firstChar a2 = 'c' ∨ firstChar a2 = 's')
    (hopnd : firstChar a3 = 'P' ∨ firstChar a3 = 'U' ∨ firstChar a3 = 'W') :
    ∃ r, mon_modify argc argv kern_pgdir = some r ∧ r.ret = 0 ∧
      flagMask (firstChar a3) = 2 ^ flagBit (firstChar a3) ∧
      (∀ i, (pte_read r.pgdir entry).testBit i =
        if i = flagBit (firstChar a3) then decide (firstChar a2 = 's') else e.testBit i) ∧
      PTE_ADDR (pte_read r.pgdir entry) = PTE_ADDR e ∧
      (∀ d t, (d, t) ≠ entry → entryAt r.pgdir d t = entryAt kern_pgdir d t) ∧
      (∀ d, (r.pgdir d).isSome = (kern_pgdir d).isSome) := by
  have htab := (pgdir_walk_table kern_pgdir _ _ entry hwalk).2
  refine ⟨_, mon_modify_success argc argv kern_pgdir a1 a2 a3 entry h1 h2 h3 hwalk hopt hopnd,
    rfl, flagMask_eq_two_pow _, ?_, ?_, ?_, ?_⟩
  · intro i
    simp only [pte_read_write_same kern_pgdir entry _ htab, he]
    exact modify_entry_testBit _ _ e i hword hopt hopnd
  · simp only [pte_read_write_same kern_pgdir entry _ htab, he]
    apply PTE_ADDR_eq_of_high_bits
    intro i hi
    rw [modify_entry_testBit _ _ e i hword hopt hopnd]
    have h3 := flagBit_lt (firstChar a3)
    have hne : ¬ i = flagBit (firstChar a3) := by omega
    simp [hne]
  · intro d t hdt
    exact entryAt_write_other kern_pgdir entry _ d t hdt
  · intro d
    exact table_write kern_pgdir entry _ d

/-- Witness of C1: `modify 0x1000 c W` on a table whose entry for `0x1000` is
`0x2007`. -/
theorem modify_patches_exactly_named_bit_witness :
    pgdir_walk (pgdirOnePage 0x2007) (strtol16 "0x1000".toList) false = some (0, 1) ∧
    pte_read (pgdirOnePage 0x2007) (0, 1) = 0x2007 ∧
    ∃ r, mon_modify 4 (modifyArgv "0x1000" "c" "W") (pgdirOnePage 0x2007) = some r ∧
      r.ret = 0 ∧ flagMask 'W' = 2 ^ flagBit 'W' ∧
      (∀ i, (pte_read r.pgdir (0, 1)).testBit i =
        if i = flagBit 'W' then decide ('c' = 's') else (0x2007 : Nat).testBit i) ∧
      PTE_ADDR (pte_read r.pgdir (0, 1)) = PTE_ADDR 0x2007 ∧
      (∀ d t, (d, t) ≠ ((0, 1) : EntryRef) →
        entryAt r.pgdir d t = entryAt (pgdirOnePage 0x2007) d t) ∧
      (∀ d, (r.pgdir d).isSome = (pgdirOnePage 0x2007 d).isSome) :=
  ⟨by decide, by decide,
    modify_patches_exactly_named_bit 4 (modifyArgv "0x1000" "c" "W") (pgdirOnePage 0x2007)
      "0x1000".toList "c".toList "W".toList (0, 1) 0x2007 rfl rfl rfl (by decide) (by decide)
      (by decide) (Or.inl (by decide)) (Or.inr (Or.inr (by decide)))⟩

/-- C2, as stated, fails: the entry for `0x1000` exists with Present clear, so
the Translator reports NotMapped, yet `modify 0x1000 s P` returns 0 and turns
the entry `0x2006` into `0x2007`. -/
theorem modify_not_mapped_counterexample :
    (page_lookup (pgdirOnePage 0x2006) (strtol16 "0x1000".toList)).1 = none ∧
    entryAt (pgdirOnePage 0x2006) 0 1 = some 0x2006 ∧
    (mon_modify 4 (modifyArgv "0x1000" "s" "P") (pgdirOnePage 0x2006)).map
      (fun r => (r.ret, r.out, entryAt r.pgdir 0 1)) = some (0, [], some 0x2007) := by
  decide

/-- C2, amended: `modify` reports EntryNotFound exactly when no second-level
table exists for the address. In that case it prints the message, returns -1
and leaves the page directory as it was; whenever it prints that message no
second-level table exists, so an entry that exists with Present clear is not
reported as missing, although the Translator reports NotMapped for it. -/
theorem modify_entry_not_found (argc : Nat) (argv : List (List Char))
    (kern_pgdir : PageDirectory) (a1 : List Char) (h1 : argv[1]? = some a1) :
    (kern_pgdir (PDX (strtol16 a1)) = none →
      (page_lookup kern_pgdir (strtol16 a1)).1 = none ∧
      mon_modify argc argv kern_pgdir =
        some ⟨-1, [cprintf "Page table entry not exist!\n" []], kern_pgdir⟩) ∧
    (∀ r, mon_modify argc argv kern_pgdir = some r →
      r.out = [cprintf "Page table entry not exist!\n" []] →
      kern_pgdir (PDX (strtol16 a1)) = none) := by
  constructor
  · intro hno
    have hwalk : pgdir_walk kern_pgdir (strtol16 a1) false = none := by
      simp [pgdir_walk, hno]
    constructor
    · simp [page_lookup, hwalk]
    · unfold mon_modify
      simp only [h1, hwalk]
  · intro r hr hout
    cases hpd : kern_pgdir (PDX (strtol16 a1)) with
    | none => rfl
    | some pt =>
      exfalso
      have hwalk : pgdir_walk kern_pgdir (strtol16 a1) false =
          some (PDX (strtol16 a1), PTX (strtol16 a1)) := by
        simp [pgdir_walk, hpd]
      unfold mon_modify at hr
      simp only [h1, hwalk] at hr
      cases h2 : argv[2]? with
      | none => simp [h2] at hr
      | some a2 =>
        simp only [h2] at hr
        split at hr
        · simp only [Option.some.injEq] at hr
          subst hr
          have hne : [cprintf "Error: unknown option" []] ≠
              [cprintf "Page table entry not exist!\n" []] := by decide
          exact hne hout
        · cases h3 : argv[3]? with
          | none => simp [h3] at hr
          | some a3 =>
            simp only [h3] at hr
            split at hr
            · simp only [Option.some.injEq] at hr
              subst hr
              have hne : [cprintf "Error: unknown permission bit" []] ≠
                  [cprintf "Page table entry not exist!\n" []] := by decide
              exact hne hout
            · simp only [Option.some.injEq] at hr
              subst hr
              simp at hout

/-- Witness of the amended C2: `modify 0x400000 s P` on a directory whose only
second-level table is the one at index 0. -/
theorem modify_entry_not_found_witness :
    (pgdirOnePage 0x2007 (PDX (strtol16 "0x400000".toList)) = none →
      (page_lookup (pgdirOnePage 0x2007) (strtol16 "0x400000".toList)).1 = none ∧
      mon_modify 4 (modifyArgv "0x400000" "s" "P") (pgdirOnePage 0x2007) =
        some ⟨-1, [cprintf "Page table entry not exist!\n" []], pgdirOnePage 0x2007⟩) ∧
    (∀ r, mon_modify 4 (modifyArgv "0x400000" "s" "P") (pgdirOnePage 0x2007) = some r →
      r.out = [cprintf "Page table entry not exist!\n" []] →
      pgdirOnePage 0x2007 (PDX (strtol16 "0x400000".toList)) = none) :=
  modify_entry_not_found 4 (modifyArgv "0x400000" "s" "P") (pgdirOnePage 0x2007)
    "0x400000".toList rfl

/-- C3: `modify` is idempotent. When the walk finds an entry with value `e` and
the tokens are accepted, running the same command a second time succeeds
again and leaves the page directory exactly as the first run left it; and a
Set on an entry whose bit is already set, or a Clear on an entry whose bit is
already clear, leaves the page directory (hence the entry `e`) as it was. -/
theorem modify_idempotent (argc : Nat) (argv : List (List Char))
    (kern_pgdir : PageDirectory) (a1 a2 a3 : List Char) (entry : EntryRef) (e : Nat)
    (h1 : argv[1]? = some a1) (h2 : argv[2]? = some a2) (h3 : argv[3]? = some a3)
    (hwalk : pgdir_walk kern_pgdir (strtol16 a1) false = some entry)
    (he : pte_read kern_pgdir entry = e) (hword : e < WORD)
    (hopt : firstChar a2 = 'c' ∨ firstChar a2 = 's')
    (hopnd : firstChar a3 = 'P' ∨ firstChar a3 = 'U' ∨ firstChar a3 = 'W') :
    ∃ r1 r2, mon_modify argc argv kern_pgdir = some r1 ∧
      mon_modify argc argv r1.pgdir = some r2 ∧ r1.ret = 0 ∧ r2.ret = 0 ∧
      r2.pgdir = r1.pgdir ∧
      pte_read r2.pgdir entry = pte_read r1.pgdir entry ∧
      (firstChar a2 = 's' → e &&& flagMask (firstChar a3) ≠ 0 →
        r1.pgdir = kern_pgdir ∧ pte_read r1.pgdir entry = e) ∧
      (firstChar a2 = 'c' → e &&& flagMask (firstChar a3) = 0 →
        r1.pgdir = kern_pgdir ∧ pte_read r1.pgdir entry = e) := by
  have htab := (pgdir_walk_table kern_pgdir _ _ entry hwalk).2
  have hrun1 := mon_modify_success argc argv kern_pgdir a1 a2 a3 entry h1 h2 h3 hwalk hopt hopnd
  have hwalk2 : pgdir_walk
      (pte_write kern_pgdir entry
        (modify_entry (firstChar a2) (firstChar a3) (pte_read kern_pgdir entry)))
      (strtol16 a1) false = some entry := by
    rw [pgdir_walk_write]; exact hwalk
  have hrun2 := mon_modify_success argc argv _ a1 a2 a3 entry h1 h2 h3 hwalk2 hopt hopnd
  have hsame : pte_write
      (pte_write kern_pgdir entry
        (modify_entry (firstChar a2) (firstChar a3) (pte_read kern_pgdir entry))) entry
      (modify_entry (firstChar a2) (firstChar a3)
        (pte_read
          (pte_write kern_pgdir entry
            (modify_entry (firstChar a2) (firstChar a3) (pte_read kern_pgdir entry)))
          entry)) =
      pte_write kern_pgdir entry
        (modify_entry (firstChar a2) (firstChar a3) (pte_read kern_pgdir entry)) := by
    rw [pte_write_twice, pte_read_write_same kern_pgdir entry _ htab, he,
      modify_entry_twice _ _ e hword hopt hopnd]
  have hkeep : ∀ b : Bool, decide (firstChar a2 = 's') = b →
      e.testBit (flagBit (firstChar a3)) = b →
      pte_write kern_pgdir entry
        (modify_entry (firstChar a2) (firstChar a3) (pte_read kern_pgdir entry)) = kern_pgdir ∧
      pte_read (pte_write kern_pgdir entry
        (modify_entry (firstChar a2) (firstChar a3) (pte_read kern_pgdir entry))) entry = e := by
    intro b hb hbit
    have hme : modify_entry (firstChar a2) (firstChar a3) e = e :=
      modify_entry_same _ _ e hword hopt hopnd (by rw [hbit, hb])
    rw [he, hme]
    constructor
    · rw [← he]; exact pte_write_read_self kern_pgdir entry
    · exact pte_read_write_same kern_pgdir entry e htab
  refine ⟨_, _, hrun1, hrun2, rfl, rfl, hsame, ?_, ?_, ?_⟩
  · show pte_read (pte_write _ entry _) entry = _
    rw [hsame]
  · intro hs hset
    apply hkeep true (by simp [hs])
    rw [flagMask_eq_two_pow] at hset
    by_contra hb
    exact hset ((and_two_pow_eq_zero_iff e _).2 (by simpa using hb))
  · intro hc hclear
    apply hkeep false (by simp [hc])
    rw [flagMask_eq_two_pow] at hclear
    exact (and_two_pow_eq_zero_iff e _).1 hclear

/-- Witness of C3: `modify 0x1000 s U` on an entry `0x2007` whose User bit is
already set. -/
theorem modify_idempotent_witness :
    (0x2007 : Nat) &&& flagMask 'U' ≠ 0 ∧
    ∃ r1 r2, mon_modify 4 (modifyArgv "0x1000" "s" "U") (pgdirOnePage 0x2007) = some r1 ∧
      mon_modify 4 (modifyArgv "0x1000" "s" "U") r1.pgdir = some r2 ∧ r1.ret = 0 ∧ r2.ret = 0 ∧
      r2.pgdir = r1.pgdir ∧
      pte_read r2.pgdir (0, 1) = pte_read r1.pgdir (0, 1) ∧
      ('s' = 's' → (0x2007 : Nat) &&& flagMask 'U' ≠ 0 →
        r1.pgdir = pgdirOnePage 0x2007 ∧ pte_read r1.pgdir (0, 1) = 0x2007) ∧
      ('s' = 'c' → (0x2007 : Nat) &&& flagMask 'U' = 0 →
        r1.pgdir = pgdirOnePage 0x2007 ∧ pte_read r1.pgdir (0, 1) = 0x2007) :=
  ⟨by decide,
    modify_idempotent 4 (modifyArgv "0x1000" "s" "U") (pgdirOnePage 0x2007)
      "0x1000".toList "s".toList "U".toList (0, 1) 0x2007 rfl rfl rfl (by decide) (by decide)
      (by decide) (Or.inr (by decide)) (Or.inr (Or.inl (by decide)))⟩

/-- C4, as stated, fails: on the entry `0x2007`, whose Writable bit is set,
`modify 0x1000 s W` followed by `modify 0x1000 c W` leaves `0x2005`: the
Writable bit is clear, not restored to its original state. -/
theorem modify_set_then_clear_counterexample :
    (0x2007 : Nat) &&& PTE_W ≠ 0 ∧
    ((mon_modify 4 (modifyArgv "0x1000" "s" "W") (pgdirOnePage 0x2007)).bind
      (fun r => mon_modify 4 (modifyArgv "0x1000" "c" "W") r.pgdir)).map
      (fun r => (r.ret, entryAt r.pgdir 0 1)) = some (0, some 0x2005) ∧
    (0x2005 : Nat) &&& PTE_W = 0 := by
  decide

/-- C4, amended: on an entry `e` found by the walk, Set then Clear of a bit
leaves `e` with that bit clear, and Clear then Set leaves `e` with that bit
set, every other bit being the bit of `e`; so the original entry is restored
by Set then Clear when the bit was clear in `e`, and by Clear then Set when
the bit was set in `e`. -/
theorem modify_set_clear_last_wins (argc : Nat) (cmd a1 aS aC a3 : List Char)
    (kern_pgdir : PageDirectory) (entry : EntryRef) (e : Nat)
    (hwalk : pgdir_walk kern_pgdir (strtol16 a1) false = some entry)
    (he : pte_read kern_pgdir entry = e) (hword : e < WORD)
    (hS : firstChar aS = 's') (hC : firstChar aC = 'c')
    (hopnd : firstChar a3 = 'P' ∨ firstChar a3 = 'U' ∨ firstChar a3 = 'W') :
    (∃ r1 r2, mon_modify argc [cmd, a1, aS, a3] kern_pgdir = some r1 ∧
      mon_modify argc [cmd, a1, aC, a3] r1.pgdir = some r2 ∧ r1.ret = 0 ∧ r2.ret = 0 ∧
      (∀ i, (pte_read r2.pgdir entry).testBit i =
        if i = flagBit (firstChar a3) then false else e.testBit i) ∧
      (e &&& flagMask (firstChar a3) = 0 → r2.pgdir = kern_pgdir)) ∧
    (∃ r1 r2, mon_modify argc [cmd, a1, aC, a3] kern_pgdir = some r1 ∧
      mon_modify argc [cmd, a1, aS, a3] r1.pgdir = some r2 ∧ r1.ret = 0 ∧ r2.ret = 0 ∧
      (∀ i, (pte_read r2.pgdir entry).testBit i =
        if i = flagBit (firstChar a3) then true else e.testBit i) ∧
      (e &&& flagMask (firstChar a3) ≠ 0 → r2.pgdir = kern_pgdir)) := by
  have htab := (pgdir_walk_table kern_pgdir _ _ entry hwalk).2
  have key : ∀ (x y : List Char), (firstChar x = 'c' ∨ firstChar x = 's') →
      (firstChar y = 'c' ∨ firstChar y = 's') →
      ∃ r1 r2, mon_modify argc [cmd, a1, x, a3] kern_pgdir = some r1 ∧
        mon_modify argc [cmd, a1, y, a3] r1.pgdir = some r2 ∧ r1.ret = 0 ∧ r2.ret = 0 ∧
        r2.pgdir = pte_write kern_pgdir entry
          (modify_entry (firstChar y) (firstChar a3)
            (modify_entry (firstChar x) (firstChar a3) e)) := by
    intro x y hx hy
    have hrun1 := mon_modify_success argc [cmd, a1, x, a3] kern_pgdir a1 x a3 entry
      rfl rfl rfl hwalk hx hopnd
    have hwalk2 : pgdir_walk
        (pte_write kern_pgdir entry
          (modify_entry (firstChar x) (firstChar a3) (pte_read kern_pgdir entry)))
        (strtol16 a1) false = some entry := by
      rw [pgdir_walk_write]; exact hwalk
    have hrun2 := mon_modify_success argc [cmd, a1, y, a3] _ a1 y a3 entry
      rfl rfl rfl hwalk2 hy hopnd
    refine ⟨_, _, hrun1, hrun2, rfl, rfl, ?_⟩
    show pte_write (pte_write _ entry _) entry _ = _
    rw [pte_write_twice, pte_read_write_same kern_pgdir entry _ htab, he]
  have hbits : ∀ (x y : Char) (i : Nat), (x = 'c' ∨ x = 's') → (y = 'c' ∨ y = 's') →
      (modify_entry y (firstChar a3) (modify_entry x (firstChar a3) e)).testBit i =
        if i = flagBit (firstChar a3) then decide (y = 's') else e.testBit i := by
    intro x y i hx hy
    rw [modify_entry_testBit y _ _ i (modify_entry_lt x _ e hword hx hopnd) hy hopnd,
      modify_entry_testBit x _ e i hword hx hopnd]
    by_cases hi : i = flagBit (firstChar a3) <;> simp [hi]
  have hrestore : ∀ (x y : Char), (x = 'c' ∨ x = 's') → (y = 'c' ∨ y = 's') →
      e.testBit (flagBit (firstChar a3)) = decide (y = 's') →
      pte_write kern_pgdir entry
        (modify_entry y (firstChar a3) (modify_entry x (firstChar a3) e)) = kern_pgdir := by
    intro x y hx hy hbit
    have hval : modify_entry y (firstChar a3) (modify_entry x (firstChar a3) e) = e := by
      apply Nat.eq_of_testBit_eq
      intro i
      rw [hbits x y i hx hy]
      by_cases hi : i = flagBit (firstChar a3)
      · simp [hi, hbit]
      · simp [hi]
    rw [hval, ← he]
    exact pte_write_read_self kern_pgdir entry
  constructor
  · obtain ⟨r1, r2, hr1, hr2, hz1, hz2, hpg⟩ := key aS aC (Or.inr hS) (Or.inl hC)
    refine ⟨r1, r2, hr1, hr2, hz1, hz2, ?_, ?_⟩
    · intro i
      rw [hpg, pte_read_write_same kern_pgdir entry _ htab,
        hbits _ _ i (Or.inr hS) (Or.inl hC), hC]
      simp
    · intro hclear
      rw [hpg]
      apply hrestore _ _ (Or.inr hS) (Or.inl hC)
      rw [flagMask_eq_two_pow] at hclear
      rw [(and_two_pow_eq_zero_iff e _).1 hclear, hC]
      simp
  · obtain ⟨r1, r2, hr1, hr2, hz1, hz2, hpg⟩ := key aC aS (Or.inl hC) (Or.inr hS)
    refine ⟨r1, r2, hr1, hr2, hz1, hz2, ?_, ?_⟩
    · intro i
      rw [hpg, pte_read_write_same kern_pgdir entry _ htab,
        hbits _ _ i (Or.inl hC) (Or.inr hS), hS]
      simp
    · intro hset
      rw [hpg]
      apply hrestore _ _ (Or.inl hC) (Or.inr hS)
      rw [flagMask_eq_two_pow] at hset
      rw [hS]
      by_contra hb
      exact hset ((and_two_pow_eq_zero_iff e _).2 (by simpa using hb))

/-- Witness of the amended C4: `modify 0x1000 s W` and `modify 0x1000 c W`, in
both orders, on the entry `0x2005`. -/
theorem modify_set_clear_last_wins_witness :
    pgdir_walk (pgdirOnePage 0x2005) (strtol16 "0x1000".toList) false = some (0, 1) ∧
    ((∃ r1 r2, mon_modify 4 (modifyArgv "0x1000" "s" "W") (pgdirOnePage 0x2005) = some r1 ∧
      mon_modify 4 (modifyArgv "0x1000" "c" "W") r1.pgdir = some r2 ∧ r1.ret = 0 ∧ r2.ret = 0 ∧
      (∀ i, (pte_read r2.pgdir (0, 1)).testBit i =
        if i = flagBit 'W' then false else (0x2005 : Nat).testBit i) ∧
      ((0x2005 : Nat) &&& flagMask 'W' = 0 → r2.pgdir = pgdirOnePage 0x2005)) ∧
    (∃ r1 r2, mon_modify 4 (modifyArgv "0x1000" "c" "W") (pgdirOnePage 0x2005) = some r1 ∧
      mon_modify 4 (modifyArgv "0x1000" "s" "W") r1.pgdir = some r2 ∧ r1.ret = 0 ∧ r2.ret = 0 ∧
      (∀ i, (pte_read r2.pgdir (0, 1)).testBit i =
        if i = flagBit 'W' then true else (0x2005 : Nat).testBit i) ∧
      ((0x2005 : Nat) &&& flagMask 'W' ≠ 0 → r2.pgdir = pgdirOnePage 0x2005))) :=
  ⟨by decide,
    modify_set_clear_last_wins 4 "modify".toList "0x1000".toList "s".toList "c".toList
      "W".toList (pgdirOnePage 0x2005) (0, 1) 0x2005 (by decide) (by decide) (by decide)
      (by decide) (by decide) (Or.inr (Or.inr (by decide)))⟩

/-- C5, as stated, fails: the operation token `clear` is not one of the tokens
`c`, `s`, yet `modify 0x1000 clear W` returns 0 and turns the entry `0x2007`
into `0x2005`; likewise the bit token `Write` is not one of `P`, `U`, `W`. -/
theorem modify_first_character_counterexample :
    "clear" ≠ "c" ∧ "clear" ≠ "s" ∧
    (mon_modify 4 (modifyArgv "0x1000" "clear" "W") (pgdirOnePage 0x2007)).map
      (fun r => (r.ret, r.out, entryAt r.pgdir 0 1)) = some (0, [], some 0x2005) ∧
    "Write" ≠ "P" ∧ "Write" ≠ "U" ∧ "Write" ≠ "W" ∧
    (mon_modify 4 (modifyArgv "0x1000" "c" "Write") (pgdirOnePage 0x2007)).map
      (fun r => (r.ret, r.out, entryAt r.pgdir 0 1)) = some (0, [], some 0x2005) := by
  decide

/-- C5, amended: for every address whose entry exists, if the first character
of the operation token is neither `c` nor `s`, or the first character of the
bit token is none of `P`, `U`, `W`, then `modify` prints the UnknownOption
message, returns -1 and leaves the page directory as it was. -/
theorem modify_unknown_option (argc : Nat) (argv : List (List Char))
    (kern_pgdir : PageDirectory) (a1 a2 : List Char) (entry : EntryRef)
    (h1 : argv[1]? = some a1) (h2 : argv[2]? = some a2)
    (hwalk : pgdir_walk kern_pgdir (strtol16 a1) false = some entry)
    (hbad : (firstChar a2 ≠ 'c' ∧ firstChar a2 ≠ 's') ∨
      (∃ a3, argv[3]? = some a3 ∧
        firstChar a3 ≠ 'P' ∧ firstChar a3 ≠ 'U' ∧ firstChar a3 ≠ 'W')) :
    ∃ r, mon_modify argc argv kern_pgdir = some r ∧ r.ret = -1 ∧ r.pgdir = kern_pgdir ∧
      (r.out = [cprintf "Error: unknown option" []] ∨
        r.out = [cprintf "Error: unknown permission bit" []]) := by
  by_cases hopt : firstChar a2 ≠ 'c' ∧ firstChar a2 ≠ 's'
  · refine ⟨⟨-1, [cprintf "Error: unknown option" []], kern_pgdir⟩, ?_, rfl, rfl, Or.inl rfl⟩
    unfold mon_modify
    simp only [h1, h2, hwalk]
    rw [if_pos hopt]
  · rcases hbad with hb | ⟨a3, h3, hopnd⟩
    · exact absurd hb hopt
    · refine ⟨⟨-1, [cprintf "Error: unknown permission bit" []], kern_pgdir⟩, ?_, rfl, rfl,
        Or.inr rfl⟩
      unfold mon_modify
      simp only [h1, h2, h3, hwalk]
      rw [if_neg hopt, if_pos hopnd]

/-- Witness of the amended C5: `modify 0x1000 x W` on an existing entry. -/
theorem modify_unknown_option_witness :
    pgdir_walk (pgdirOnePage 0x2007) (strtol16 "0x1000".toList) false = some (0, 1) ∧
    ∃ r, mon_modify 4 (modifyArgv "0x1000" "x" "W") (pgdirOnePage 0x2007) = some r ∧
      r.ret = -1 ∧ r.pgdir = pgdirOnePage 0x2007 ∧
      (r.out = [cprintf "Error: unknown option" []] ∨
        r.out = [cprintf "Error: unknown permission bit" []]) :=
  ⟨by decide,
    modify_unknown_option 4 (modifyArgv "0x1000" "x" "W") (pgdirOnePage 0x2007)
      "0x1000".toList "x".toList (0, 1) rfl rfl (by decide) (Or.inl (by decide))⟩

/-! ## Rows of `showmappings` -/

theorem strtol16_lt (a : List Char) : strtol16 a < WORD := by
  have hpos : 0 < WORD := by unfold WORD; norm_num
  unfold strtol16
  simp only
  split <;> exact Nat.mod_lt _ hpos

theorem digitChar_ne_newline (d : Nat) : digitChar d ≠ '\n' := by
  unfold digitChar
  by_cases hd : d < 16
  · interval_cases d <;> decide
  · have hlen : "0123456789abcdef".toList.length ≤ d := by
      have : "0123456789abcdef".toList.length = 16 := by decide
      omega
    rw [List.getD_eq_default _ _ hlen]
    decide

theorem printnumAux_no_newline (fuel num base : Nat) (width : Int) :
    '\n' ∉ printnumAux fuel num base width ' ' := by
  induction fuel generalizing num width with
  | zero =>
    simp only [printnumAux, List.mem_singleton]
    exact fun h => digitChar_ne_newline _ h.symm
  | succ n ih =>
    simp only [printnumAux, List.mem_append, List.mem_singleton]
    rintro (h | h)
    · split at h
      · exact ih _ _ h
      · have := List.eq_of_mem_replicate h
        revert this
        decide
    · exact digitChar_ne_newline _ h.symm

theorem vaField_eq (va : Nat) :
    vaField va = "   ".toList ++ printnum (va % WORD) 16 (-1) ' ' ++ "   ".toList := rfl

theorem vaField_no_newline (va : Nat) : '\n' ∉ vaField va := by
  rw [vaField_eq]
  simp only [List.mem_append, not_or]
  exact ⟨⟨by decide, printnumAux_no_newline _ _ _ _⟩, by decide⟩

theorem paddrField_eq (pa : Nat) : paddrField pa = "       x    ".toList := rfl

theorem flag_digits_text (a b c : Nat) (ha : a = 0 ∨ a = 1) (hb : b = 0 ∨ b = 1)
    (hc : c = 0 ∨ c = 1) :
    cprintf "     %d      %d     %d\n" [FmtArg.num a, FmtArg.num b, FmtArg.num c] =
      "     ".toList ++ [if a = 0 then '0' else '1'] ++ "      ".toList ++
        [if b = 0 then '0' else '1'] ++ "     ".toList ++ [if c = 0 then '0' else '1'] ++
        "\n".toList := by
  rcases ha with h | h <;> rcases hb with h' | h' <;> rcases hc with h'' | h'' <;>
    subst h <;> subst h' <;> subst h'' <;> rfl

theorem flag_arg_cases (x : Nat) :
    (1 - lnot x = 0 ∨ 1 - lnot x = 1) ∧
      (if 1 - lnot x = 0 then '0' else '1') = (if x = 0 then '0' else '1') := by
  unfold lnot
  by_cases hx : x = 0 <;> simp [hx]

theorem page_lookup_not_mapped (pgdir : PageDirectory) (va : Nat) :
    (page_lookup pgdir va).1 = none ↔
      (pgdir (PDX va) = none ∨ pte_read pgdir (PDX va, PTX va) &&& PTE_P = 0) := by
  unfold page_lookup pgdir_walk
  cases hpd : pgdir (PDX va) with
  | none => simp
  | some pt =>
    simp only
    split <;> simp_all

theorem page_lookup_mapped (pgdir : PageDirectory) (va : Nat)
    (h : (page_lookup pgdir va).1 ≠ none) :
    page_lookup pgdir va =
      (some (PTE_ADDR (pte_read pgdir (PDX va, PTX va)) >>> 12), some (PDX va, PTX va)) ∧
      pte_read pgdir (PDX va, PTX va) &&& PTE_P ≠ 0 := by
  unfold page_lookup pgdir_walk at h ⊢
  cases hpd : pgdir (PDX va) with
  | none => simp [hpd] at h
  | some pt =>
    simp only [hpd] at h ⊢
    split
    · rename_i hz
      simp [hz] at h
    · rename_i hz
      exact ⟨rfl, hz⟩

theorem showmappings_row_unmapped (pgdir : PageDirectory) (va : Nat)
    (h : (page_lookup pgdir va).1 = none) :
    showmappings_row pgdir va = unmappedRowText va := by
  unfold showmappings_row
  cases hpl : page_lookup pgdir va with
  | mk f en =>
    rw [hpl] at h
    simp only at h
    subst h
    rfl

theorem showmappings_row_mapped (pgdir : PageDirectory) (va : Nat)
    (h : (page_lookup pgdir va).1 ≠ none) :
    showmappings_row pgdir va =
      mappedRowText va (PTE_ADDR (pte_read pgdir (PDX va, PTX va)))
        (flagDigit (pte_read pgdir (PDX va, PTX va)) PTE_U)
        (flagDigit (pte_read pgdir (PDX va, PTX va)) PTE_W)
        (flagDigit (pte_read pgdir (PDX va, PTX va)) PTE_P) := by
  have hm := (page_lookup_mapped pgdir va h).1
  unfold showmappings_row
  rw [hm]
  simp only [flagArgs]
  rw [flag_digits_text _ _ _ (flag_arg_cases _).1 (flag_arg_cases _).1 (flag_arg_cases _).1,
    (flag_arg_cases _).2, (flag_arg_cases _).2, (flag_arg_cases _).2]
  simp only [mappedRowText, flagDigit, vaField, paddrField, List.append_assoc]

theorem mapped_ne_unmapped (va pa : Nat) (u w p : Char) :
    mappedRowText va pa u w p ≠ unmappedRowText va := by
  unfold mappedRowText unmappedRowText
  rw [List.append_assoc]
  intro h
  have h2 := List.append_cancel_left h
  rw [paddrField_eq] at h2
  revert h2
  simp

theorem row_is_one_line (pgdir : PageDirectory) (va : Nat) :
    (showmappings_row pgdir va).count '\n' = 1 ∧
      (showmappings_row pgdir va).getLast? = some '\n' := by
  have hva := List.count_eq_zero_of_not_mem (vaField_no_newline va)
  by_cases h : (page_lookup pgdir va).1 = none
  · rw [showmappings_row_unmapped pgdir va h]
    unfold unmappedRowText
    constructor
    · rw [List.count_append, hva]; decide
    · rw [List.getLast?_append]; rfl
  · rw [showmappings_row_mapped pgdir va h]
    unfold mappedRowText
    constructor
    · rw [List.count_append, List.count_append, hva, paddrField_eq]
      unfold flagDigit
      split <;> split <;> split <;> decide
    · rw [List.getLast?_append, List.getLast?_append]
      rfl

theorem mon_showmappings_run (argc : Nat) (argv : List (List Char))
    (kern_pgdir : PageDirectory) (a1 a2 : List Char) (hargc : 3 ≤ argc)
    (h1 : argv[1]? = some a1) (h2 : argv[2]? = some a2) :
    mon_showmappings argc argv kern_pgdir =
      some ⟨0, showmappingsHeader ::
        (List.range (showmappings_cnt (strtol16 a1) (strtol16 a2))).map
          (fun i => showmappings_row kern_pgdir ((strtol16 a1 + i * 0x1000) % WORD)),
        kern_pgdir⟩ := by
  have hn : ¬ argc < 3 := by omega
  unfold mon_showmappings
  simp only [hn, if_false, h1, h2]
  rfl

theorem showmappings_cnt_aligned (s e : Nat) (he : e < WORD) (hse : s < e) :
    showmappings_cnt s e = (e - s) / 4096 := by
  have h24 : (0xFFFFFF : Nat) = 2 ^ 24 - 1 := by norm_num
  have hW : WORD = 4294967296 := by unfold WORD; norm_num
  unfold showmappings_cnt
  have hd : (e + WORD - s) % WORD = e - s := by
    have : e + WORD - s = (e - s) + WORD := by omega
    rw [this, Nat.add_mod_right]
    exact Nat.mod_eq_of_lt (by omega)
  rw [hd, h24, Nat.and_pow_two_sub_one_eq_mod, Nat.shiftRight_eq_div_pow]
  apply Nat.mod_eq_of_lt
  have : (e - s) / 2 ^ 12 ≤ (e - s) / 1 := Nat.div_le_div_left (by norm_num) (by norm_num)
  have h2 : (e - s) / 2 ^ 12 < 2 ^ 20 := by
    apply Nat.div_lt_of_lt_mul
    rw [hW] at he
    norm_num
    omega
  exact lt_trans h2 (by norm_num)

theorem showmappings_row_at (rows : Nat → List Char) (n i : Nat) (hi : i < n) :
    (showmappingsHeader :: (List.range n).map rows)[i + 1]? = some (rows i) := by
  rw [List.getElem?_cons_succ, List.getElem?_map, List.getElem?_range hi]
  rfl

/-- C6: for page-aligned 32-bit addresses `s < e` given as the two arguments,
`showmappings` returns 0 and writes the header followed by exactly
`(e - s) / 4096` rows; the row of index `i` is the row of the virtual address
`s + i * 4096`, which lies inside `[s, e)`; it starts with the address field of
that address and is one line of text. The pages tile the range exactly, so
the addresses increase by one page from row to row with no gap and no repeat. -/
theorem showmappings_rows_in_order (argc : Nat) (argv : List (List Char))
    (kern_pgdir : PageDirectory) (a1 a2 : List Char) (s e : Nat) (hargc : 3 ≤ argc)
    (h1 : argv[1]? = some a1) (h2 : argv[2]? = some a2)
    (hs : strtol16 a1 = s) (he : strtol16 a2 = e)
    (hsa : s % 4096 = 0) (hea : e % 4096 = 0) (hse : s < e) :
    ∃ r, mon_showmappings argc argv kern_pgdir = some r ∧ r.ret = 0 ∧
      r.out = showmappingsHeader ::
        (List.range ((e - s) / 4096)).map (fun i => showmappings_row kern_pgdir (s + i * 4096)) ∧
      r.out.length = 1 + (e - s) / 4096 ∧
      s + (e - s) / 4096 * 4096 = e ∧
      (∀ i, i < (e - s) / 4096 →
        r.out[i + 1]? = some (showmappings_row kern_pgdir (s + i * 4096)) ∧
        s ≤ s + i * 4096 ∧ s + i * 4096 < e ∧
        (∃ rest, showmappings_row kern_pgdir (s + i * 4096) = vaField (s + i * 4096) ++ rest) ∧
        (showmappings_row kern_pgdir (s + i * 4096)).count '\n' = 1 ∧
        (showmappings_row kern_pgdir (s + i * 4096)).getLast? = some '\n') ∧
      (∀ i j, i < j → s + i * 4096 < s + j * 4096) := by
  have hew : e < WORD := by rw [← he]; exact strtol16_lt a2
  have hW : WORD = 4294967296 := by unfold WORD; norm_num
  have hcnt := showmappings_cnt_aligned s e hew hse
  have htile : s + (e - s) / 4096 * 4096 = e := by omega
  have hin : ∀ i, i < (e - s) / 4096 → s + i * 4096 < e := by
    intro i hi
    have : (i + 1) * 4096 ≤ (e - s) / 4096 * 4096 := Nat.mul_le_mul_right _ hi
    omega
  have hrows : (List.range (showmappings_cnt s e)).map
      (fun i => showmappings_row kern_pgdir ((s + i * 0x1000) % WORD)) =
      (List.range ((e - s) / 4096)).map (fun i => showmappings_row kern_pgdir (s + i * 4096)) := by
    rw [hcnt]
    apply List.map_congr_left
    intro i hi
    have hi2 := hin i (List.mem_range.1 hi)
    show showmappings_row kern_pgdir ((s + i * 4096) % WORD) = _
    rw [Nat.mod_eq_of_lt (by omega)]
  have hrun := mon_showmappings_run argc argv kern_pgdir a1 a2 hargc h1 h2
  rw [hs, he, hrows] at hrun
  refine ⟨_, hrun, rfl, rfl, ?_, htile, ?_, ?_⟩
  · simp only [List.length_cons, List.length_map, List.length_range]
    omega
  · intro i hi
    refine ⟨showmappings_row_at _ _ i hi, by omega, hin i hi, ⟨_, rfl⟩,
      (row_is_one_line kern_pgdir _).1, (row_is_one_line kern_pgdir _).2⟩
  · intro i j hij
    omega

/-- Witness of C6: `showmappings 0x1000 0x4000` writes three rows. -/
theorem showmappings_rows_in_order_witness :
    strtol16 "0x1000".toList = 0x1000 ∧ strtol16 "0x4000".toList = 0x4000 ∧
    ∃ r, mon_showmappings 3 (showmappingsArgv "0x1000" "0x4000") (pgdirOnePage 0x2007) = some r ∧
      r.ret = 0 ∧
      r.out = showmappingsHeader ::
        (List.range ((0x4000 - 0x1000) / 4096)).map
          (fun i => showmappings_row (pgdirOnePage 0x2007) (0x1000 + i * 4096)) ∧
      r.out.length = 1 + (0x4000 - 0x1000) / 4096 ∧
      0x1000 + (0x4000 - 0x1000) / 4096 * 4096 = 0x4000 ∧
      (∀ i, i < (0x4000 - 0x1000) / 4096 →
        r.out[i + 1]? = some (showmappings_row (pgdirOnePage 0x2007) (0x1000 + i * 4096)) ∧
        0x1000 ≤ 0x1000 + i * 4096 ∧ 0x1000 + i * 4096 < 0x4000 ∧
        (∃ rest, showmappings_row (pgdirOnePage 0x2007) (0x1000 + i * 4096) =
          vaField (0x1000 + i * 4096) ++ rest) ∧
        (showmappings_row (pgdirOnePage 0x2007) (0x1000 + i * 4096)).count '\n' = 1 ∧
        (showmappings_row (pgdirOnePage 0x2007) (0x1000 + i * 4096)).getLast? = some '\n') ∧
      (∀ i j, i < j → 0x1000 + i * 4096 < 0x1000 + j * 4096) :=
  ⟨by decide, by decide,
    showmappings_rows_in_order 3 (showmappingsArgv "0x1000" "0x4000") (pgdirOnePage 0x2007)
      "0x1000".toList "0x4000".toList 0x1000 0x4000 (by decide) rfl rfl (by decide) (by decide)
      (by decide) (by decide) (by decide)⟩

theorem flagDigit_one_iff (e mask : Nat) : flagDigit e mask = '1' ↔ e &&& mask ≠ 0 := by
  unfold flagDigit
  by_cases h : e &&& mask = 0
  · simp [h]
  · simp [h]

theorem flagDigit_zero_iff (e mask : Nat) : flagDigit e mask = '0' ↔ e &&& mask = 0 := by
  unfold flagDigit
  by_cases h : e &&& mask = 0
  · simp [h]
  · simp [h]

theorem showmappings_row_index (argc : Nat) (argv : List (List Char))
    (kern_pgdir : PageDirectory) (a1 a2 : List Char) (i : Nat) (hargc : 3 ≤ argc)
    (h1 : argv[1]? = some a1) (h2 : argv[2]? = some a2)
    (hi : i < showmappings_cnt (strtol16 a1) (strtol16 a2)) :
    ∃ r, mon_showmappings argc argv kern_pgdir = some r ∧ r.ret = 0 ∧
      r.pgdir = kern_pgdir ∧
      r.out.length = 1 + showmappings_cnt (strtol16 a1) (strtol16 a2) ∧
      r.out[0]? = some showmappingsHeader ∧
      r.out[i + 1]? =
        some (showmappings_row kern_pgdir ((strtol16 a1 + i * 0x1000) % WORD)) := by
  refine ⟨_, mon_showmappings_run argc argv kern_pgdir a1 a2 hargc h1 h2, rfl, rfl, ?_,
    List.getElem?_cons_zero, showmappings_row_at _ _ i hi⟩
  simp only [List.length_cons, List.length_map, List.length_range]
  omega

/-- C7: for every page of the reported range that the Translator finds mapped,
with `e` the value of the entry it found, the row of that page is the address
field, the physical-address field and then three digits in the order User,
Writable, Present, each digit being `1` exactly when the flag bit (PTE_U,
PTE_W, PTE_P) is set in `e` and `0` exactly when it is clear. Moreover
`showmappings 0x0 0x3000` over a table in which only the first of the three
pages is mapped, with User and Writable set, writes the header, one mapped
row with the digits 1 1 1 and two placeholder rows. -/
theorem showmappings_flag_digits :
    (∀ (argc : Nat) (argv : List (List Char)) (kern_pgdir : PageDirectory)
      (a1 a2 : List Char) (i va e : Nat) (entry : EntryRef),
      3 ≤ argc → argv[1]? = some a1 → argv[2]? = some a2 →
      i < showmappings_cnt (strtol16 a1) (strtol16 a2) →
      va = (strtol16 a1 + i * 0x1000) % WORD →
      (page_lookup kern_pgdir va).1 ≠ none →
      (page_lookup kern_pgdir va).2 = some entry →
      e = pte_read kern_pgdir entry →
      ∃ r, mon_showmappings argc argv kern_pgdir = some r ∧
        r.out[i + 1]? = some (mappedRowText va (PTE_ADDR e)
          (flagDigit e PTE_U) (flagDigit e PTE_W) (flagDigit e PTE_P)) ∧
        (flagDigit e PTE_U = '1' ↔ e &&& PTE_U ≠ 0) ∧
        (flagDigit e PTE_U = '0' ↔ e &&& PTE_U = 0) ∧
        (flagDigit e PTE_W = '1' ↔ e &&& PTE_W ≠ 0) ∧
        (flagDigit e PTE_W = '0' ↔ e &&& PTE_W = 0) ∧
        (flagDigit e PTE_P = '1' ↔ e &&& PTE_P ≠ 0) ∧
        (flagDigit e PTE_P = '0' ↔ e &&& PTE_P = 0)) ∧
    (∀ (kern_pgdir : PageDirectory),
      (page_lookup kern_pgdir 0).1 ≠ none →
      pte_read kern_pgdir (0, 0) &&& PTE_U ≠ 0 →
      pte_read kern_pgdir (0, 0) &&& PTE_W ≠ 0 →
      (page_lookup kern_pgdir 0x1000).1 = none →
      (page_lookup kern_pgdir 0x2000).1 = none →
      ∃ r, mon_showmappings 3 (showmappingsArgv "0x0" "0x3000") kern_pgdir = some r ∧
        r.ret = 0 ∧
        r.out =
          ["     VADDR          PADDR     PTE_U  PTE_W  PTE_P\n".toList,
           "   0          x         1      1     1\n".toList,
           "   1000          None            None   None  None\n".toList,
           "   2000          None            None   None  None\n".toList]) := by
  constructor
  · intro argc argv kern_pgdir a1 a2 i va e entry hargc h1 h2 hi hva hmap hentry he
    obtain ⟨r, hr, _, _, _, _, hrow⟩ :=
      showmappings_row_index argc argv kern_pgdir a1 a2 i hargc h1 h2 hi
    have hm := (page_lookup_mapped kern_pgdir va hmap).1
    rw [hm] at hentry
    simp only [Option.some.injEq] at hentry
    subst hentry
    subst he
    refine ⟨r, hr, ?_, flagDigit_one_iff _ _, flagDigit_zero_iff _ _, flagDigit_one_iff _ _,
      flagDigit_zero_iff _ _, flagDigit_one_iff _ _, flagDigit_zero_iff _ _⟩
    rw [hrow, ← hva, showmappings_row_mapped kern_pgdir va hmap]
  · intro kern_pgdir hmap hu hw hun1 hun2
    have hp := (page_lookup_mapped kern_pgdir 0 hmap).2
    have hrun := mon_showmappings_run 3 (showmappingsArgv "0x0" "0x3000") kern_pgdir
      "0x0".toList "0x3000".toList (by decide) rfl rfl
    refine ⟨_, hrun, rfl, ?_⟩
    have h0 : showmappings_row kern_pgdir 0 =
        "   0          x         1      1     1\n".toList := by
      rw [showmappings_row_mapped kern_pgdir 0 hmap]
      have e1 : PDX 0 = 0 := by decide
      have e2 : PTX 0 = 0 := by decide
      rw [e1, e2]
      rw [(flagDigit_one_iff _ _).2 hu, (flagDigit_one_iff _ _).2 hw]
      rw [e1, e2] at hp
      rw [(flagDigit_one_iff _ _).2 hp]
      rfl
    have h1 : showmappings_row kern_pgdir 0x1000 =
        "   1000          None            None   None  None\n".toList := by
      rw [showmappings_row_unmapped kern_pgdir _ hun1]; rfl
    have h2 : showmappings_row kern_pgdir 0x2000 =
        "   2000          None            None   None  None\n".toList := by
      rw [showmappings_row_unmapped kern_pgdir _ hun2]; rfl
    show [showmappingsHeader, showmappings_row kern_pgdir 0, showmappings_row kern_pgdir 0x1000,
      showmappings_row kern_pgdir 0x2000] = _
    rw [h0, h1, h2]
    rfl

/-- Witness of C7: `showmappings 0x0 0x3000` on a table whose only non-zero
entry is `0x5007`, for the page at `0`. -/
theorem showmappings_flag_digits_witness :
    (page_lookup (pgdirFirstPage 0x5007) 0).1 ≠ none ∧
    (page_lookup (pgdirFirstPage 0x5007) 0x1000).1 = none ∧
    (∃ r, mon_showmappings 3 (showmappingsArgv "0x0" "0x3000") (pgdirFirstPage 0x5007) = some r ∧
      r.out[0 + 1]? = some (mappedRowText 0 (PTE_ADDR 0x5007)
        (flagDigit 0x5007 PTE_U) (flagDigit 0x5007 PTE_W) (flagDigit 0x5007 PTE_P)) ∧
      (flagDigit 0x5007 PTE_U = '1' ↔ 0x5007 &&& PTE_U ≠ 0) ∧
      (flagDigit 0x5007 PTE_U = '0' ↔ 0x5007 &&& PTE_U = 0) ∧
      (flagDigit 0x5007 PTE_W = '1' ↔ 0x5007 &&& PTE_W ≠ 0) ∧
      (flagDigit 0x5007 PTE_W = '0' ↔ 0x5007 &&& PTE_W = 0) ∧
      (flagDigit 0x5007 PTE_P = '1' ↔ 0x5007 &&& PTE_P ≠ 0) ∧
      (flagDigit 0x5007 PTE_P = '0' ↔ 0x5007 &&& PTE_P = 0)) ∧
    (∃ r, mon_showmappings 3 (showmappingsArgv "0x0" "0x3000") (pgdirFirstPage 0x5007) = some r ∧
      r.ret = 0 ∧
      r.out =
        ["     VADDR          PADDR     PTE_U  PTE_W  PTE_P\n".toList,
         "   0          x         1      1     1\n".toList,
         "   1000          None            None   None  None\n".toList,
         "   2000          None            None   None  None\n".toList]) :=
  ⟨by decide, by decide,
    showmappings_flag_digits.1 3 (showmappingsArgv "0x0" "0x3000") (pgdirFirstPage 0x5007)
      "0x0".toList "0x3000".toList 0 0 0x5007 (0, 0) (by decide) rfl rfl (by decide) (by decide)
      (by decide) (by decide) (by decide),
    showmappings_flag_digits.2 (pgdirFirstPage 0x5007) (by decide) (by decide) (by decide)
      (by decide) (by decide)⟩

/-- C8 fails on the code: with the pages at `0x1000` and `0x2000` mapped to the
different frames `0x2000` and `0x5000`, `showmappings 0x1000 0x3000` writes in
both rows the same physical-address field, the literal text of the format
string, in which no frame base address appears. -/
theorem showmappings_paddr_field_is_literal :
    (page_lookup (pgdirTwoPages 0x2007 0x5007) 0x1000).1 ≠ none ∧
    (page_lookup (pgdirTwoPages 0x2007 0x5007) 0x2000).1 ≠ none ∧
    PTE_ADDR (pte_read (pgdirTwoPages 0x2007 0x5007) (PDX 0x1000, PTX 0x1000)) = 0x2000 ∧
    PTE_ADDR (pte_read (pgdirTwoPages 0x2007 0x5007) (PDX 0x2000, PTX 0x2000)) = 0x5000 ∧
    (mon_showmappings 3 (showmappingsArgv "0x1000" "0x3000") (pgdirTwoPages 0x2007 0x5007)).map
      (fun r => (r.ret, r.out)) =
      some (0, [showmappingsHeader,
        mappedRowText 0x1000 0x2000 '1' '1' '1', mappedRowText 0x2000 0x5000 '1' '1' '1']) ∧
    paddrField 0x2000 = "       x    ".toList ∧
    paddrField 0x5000 = "       x    ".toList ∧
    mappedRowText 0x1000 0x2000 '1' '1' '1' =
      "   1000          x         1      1     1\n".toList ∧
    mappedRowText 0x2000 0x5000 '1' '1' '1' =
      "   2000          x         1      1     1\n".toList := by
  decide

/-- C9: for every page of the reported range, the row is the placeholder row
(the address field followed by None for the physical address and for the
three flags) if and only if the Translator reports NotMapped for the address
of that page; and any other run on the same page directory that reaches the
same address writes the same row for it. -/
theorem showmappings_unmapped_row_iff (argc : Nat) (argv : List (List Char))
    (kern_pgdir : PageDirectory) (a1 a2 : List Char) (i va : Nat) (hargc : 3 ≤ argc)
    (h1 : argv[1]? = some a1) (h2 : argv[2]? = some a2)
    (hi : i < showmappings_cnt (strtol16 a1) (strtol16 a2))
    (hva : va = (strtol16 a1 + i * 0x1000) % WORD) :
    ∃ r, mon_showmappings argc argv kern_pgdir = some r ∧
      (r.out[i + 1]? = some (unmappedRowText va) ↔ (page_lookup kern_pgdir va).1 = none) ∧
      (∀ (argc1 : Nat) (argv1 : List (List Char)) (b1 b2 : List Char) (j : Nat),
        3 ≤ argc1 → argv1[1]? = some b1 → argv1[2]? = some b2 →
        j < showmappings_cnt (strtol16 b1) (strtol16 b2) →
        (strtol16 b1 + j * 0x1000) % WORD = va →
        ∃ r1, mon_showmappings argc1 argv1 kern_pgdir = some r1 ∧
          r1.out[j + 1]? = r.out[i + 1]?) := by
  obtain ⟨r, hr, _, _, _, _, hrow⟩ :=
    showmappings_row_index argc argv kern_pgdir a1 a2 i hargc h1 h2 hi
  rw [← hva] at hrow
  refine ⟨r, hr, ?_, ?_⟩
  · rw [hrow]
    constructor
    · intro h
      by_contra hmap
      rw [showmappings_row_mapped kern_pgdir va hmap] at h
      simp only [Option.some.injEq] at h
      exact mapped_ne_unmapped _ _ _ _ _ h
    · intro h
      rw [showmappings_row_unmapped kern_pgdir va h]
  · intro argc1 argv1 b1 b2 j hargc1 hb1 hb2 hj hsame
    obtain ⟨r1, hr1, _, _, _, _, hrow1⟩ :=
      showmappings_row_index argc1 argv1 kern_pgdir b1 b2 j hargc1 hb1 hb2 hj
    exact ⟨r1, hr1, by rw [hrow1, hrow, hsame]⟩

/-- Witness of C9: the second row of `showmappings 0x0 0x3000` on a table whose
only non-zero entry is the one for the page at `0`. -/
theorem showmappings_unmapped_row_iff_witness :
    (page_lookup (pgdirFirstPage 0x5007) 0x1000).1 = none ∧
    ∃ r, mon_showmappings 3 (showmappingsArgv "0x0" "0x3000") (pgdirFirstPage 0x5007) = some r ∧
      (r.out[1 + 1]? = some (unmappedRowText 0x1000) ↔
        (page_lookup (pgdirFirstPage 0x5007) 0x1000).1 = none) ∧
      (∀ (argc1 : Nat) (argv1 : List (List Char)) (b1 b2 : List Char) (j : Nat),
        3 ≤ argc1 → argv1[1]? = some b1 → argv1[2]? = some b2 →
        j < showmappings_cnt (strtol16 b1) (strtol16 b2) →
        (strtol16 b1 + j * 0x1000) % WORD = 0x1000 →
        ∃ r1, mon_showmappings argc1 argv1 (pgdirFirstPage 0x5007) = some r1 ∧
          r1.out[j + 1]? = r.out[1 + 1]?) :=
  ⟨by decide,
    showmappings_unmapped_row_iff 3 (showmappingsArgv "0x0" "0x3000") (pgdirFirstPage 0x5007)
      "0x0".toList "0x3000".toList 1 0x1000 (by decide) rfl rfl (by decide) (by decide)⟩

theorem flagDigit_two_pow (e k : Nat) :
    flagDigit e (2 ^ k) = if e.testBit k then '1' else '0' := by
  unfold flagDigit
  by_cases h : e &&& 2 ^ k = 0
  · simp [h, (and_two_pow_eq_zero_iff e k).1 h]
  · have hb : e.testBit k = true := by
      by_contra hb
      exact h ((and_two_pow_eq_zero_iff e k).2 (by simpa using hb))
    simp [h, hb]

theorem pgdir_walk_of_mapped (pgdir : PageDirectory) (va : Nat)
    (h : (page_lookup pgdir va).1 ≠ none) :
    pgdir_walk pgdir va false = some (PDX va, PTX va) := by
  unfold page_lookup at h
  cases hw : pgdir_walk pgdir va false with
  | none => simp [hw] at h
  | some entry => rw [(pgdir_walk_table pgdir va false entry hw).1]

theorem showmappings_one_page (kern_pgdir : PageDirectory) :
    mon_showmappings 3 (showmappingsArgv "0x1000" "0x2000") kern_pgdir =
      some ⟨0, [showmappingsHeader, showmappings_row kern_pgdir 0x1000], kern_pgdir⟩ := by
  rw [mon_showmappings_run 3 (showmappingsArgv "0x1000" "0x2000") kern_pgdir
    "0x1000".toList "0x2000".toList (by decide) rfl rfl]
  rfl

/-- C10: on every page directory in which the page at `0x1000` is mapped with
Writable set, `modify 0x1000 c W` succeeds, and `showmappings 0x1000 0x2000`
then writes the header and exactly one row, the row of `0x1000`, whose
Writable digit is 0 and whose User and Present digits (and both address
fields) are those of the row written before the modify, whose Writable digit
was 1. -/
theorem modify_then_showmappings (kern_pgdir : PageDirectory) (entry : EntryRef) (e : Nat)
    (hmap : (page_lookup kern_pgdir 0x1000).1 ≠ none)
    (hentry : (page_lookup kern_pgdir 0x1000).2 = some entry)
    (he : e = pte_read kern_pgdir entry) (hword : e < WORD) (hw : e &&& PTE_W ≠ 0) :
    ∃ rb rm ra,
      mon_showmappings 3 (showmappingsArgv "0x1000" "0x2000") kern_pgdir = some rb ∧
      mon_modify 4 (modifyArgv "0x1000" "c" "W") kern_pgdir = some rm ∧ rm.ret = 0 ∧
      mon_showmappings 3 (showmappingsArgv "0x1000" "0x2000") rm.pgdir = some ra ∧
      rb.out = [showmappingsHeader,
        mappedRowText 0x1000 (PTE_ADDR e) (flagDigit e PTE_U) '1' (flagDigit e PTE_P)] ∧
      ra.out = [showmappingsHeader,
        mappedRowText 0x1000 (PTE_ADDR e) (flagDigit e PTE_U) '0' (flagDigit e PTE_P)] := by
  have hm := page_lookup_mapped kern_pgdir 0x1000 hmap
  have hwalk := pgdir_walk_of_mapped kern_pgdir 0x1000 hmap
  have hd : PDX 0x1000 = 0 := by decide
  have ht : PTX 0x1000 = 1 := by decide
  rw [hd, ht] at hwalk
  rw [hm.1] at hentry
  simp only [Option.some.injEq, hd, ht] at hentry
  subst hentry
  have htab := (pgdir_walk_table kern_pgdir _ _ _ hwalk).2
  have hrun := mon_modify_success 4 (modifyArgv "0x1000" "c" "W") kern_pgdir
    "0x1000".toList "c".toList "W".toList (0, 1) rfl rfl rfl hwalk
    (Or.inl (by decide)) (Or.inr (Or.inr (by decide)))
  have hc : firstChar "c".toList = 'c' := by decide
  have hW : firstChar "W".toList = 'W' := by decide
  rw [hc, hW, ← he] at hrun
  have hbits : ∀ i, (modify_entry 'c' 'W' e).testBit i =
      if i = 1 then false else e.testBit i := by
    intro i
    rw [modify_entry_testBit 'c' 'W' e i hword (Or.inl rfl) (Or.inr (Or.inr rfl))]
    have hf : flagBit 'W' = 1 := by decide
    rw [hf]
    simp
  have hread : pte_read (pte_write kern_pgdir (0, 1) (modify_entry 'c' 'W' e))
      (PDX 0x1000, PTX 0x1000) = modify_entry 'c' 'W' e := by
    rw [hd, ht]
    exact pte_read_write_same kern_pgdir (0, 1) _ htab
  have hU : PTE_U = 2 ^ 2 := by decide
  have hWm : PTE_W = 2 ^ 1 := by decide
  have hP : PTE_P = 2 ^ 0 := by decide
  have hpres : e &&& PTE_P ≠ 0 := by
    have := hm.2
    rw [hd, ht, ← he] at this
    exact this
  have hmap2 : (page_lookup (pte_write kern_pgdir (0, 1) (modify_entry 'c' 'W' e)) 0x1000).1
      ≠ none := by
    rw [Ne, page_lookup_not_mapped, hread]
    rintro (hno | hz)
    · have h1 := table_write kern_pgdir (0, 1) (modify_entry 'c' 'W' e) (PDX 0x1000)
      obtain ⟨pt, hpt⟩ := htab
      rw [hno, hd] at h1
      simp only at hpt
      rw [hpt] at h1
      simp at h1
    · rw [hP, and_two_pow_eq_zero_iff, hbits, if_neg (by decide)] at hz
      rw [hP, Ne, and_two_pow_eq_zero_iff] at hpres
      exact hpres hz
  refine ⟨_, _, _, showmappings_one_page kern_pgdir, hrun, rfl,
    showmappings_one_page _, ?_, ?_⟩
  · show [showmappingsHeader, showmappings_row kern_pgdir 0x1000] = _
    rw [showmappings_row_mapped kern_pgdir 0x1000 hmap, hd, ht, ← he,
      (flagDigit_one_iff e PTE_W).2 hw]
  · show [showmappingsHeader, showmappings_row _ 0x1000] = _
    rw [showmappings_row_mapped _ 0x1000 hmap2, hread]
    have e1 : PTE_ADDR (modify_entry 'c' 'W' e) = PTE_ADDR e := by
      apply PTE_ADDR_eq_of_high_bits
      intro i hi
      rw [hbits]
      have : ¬ i = 1 := by omega
      simp [this]
    have e2 : flagDigit (modify_entry 'c' 'W' e) PTE_U = flagDigit e PTE_U := by
      rw [hU, flagDigit_two_pow, flagDigit_two_pow, hbits]
      simp
    have e3 : flagDigit (modify_entry 'c' 'W' e) PTE_W = '0' := by
      rw [hWm, flagDigit_two_pow, hbits]
      simp
    have e4 : flagDigit (modify_entry 'c' 'W' e) PTE_P = flagDigit e PTE_P := by
      rw [hP, flagDigit_two_pow, flagDigit_two_pow, hbits]
      simp
    rw [e1, e2, e3, e4]

/-- Witness of C10: the entry of the page at `0x1000` is `0x2007`. -/
theorem modify_then_showmappings_witness :
    (page_lookup (pgdirOnePage 0x2007) 0x1000).1 ≠ none ∧ (0x2007 : Nat) &&& PTE_W ≠ 0 ∧
    ∃ rb rm ra,
      mon_showmappings 3 (showmappingsArgv "0x1000" "0x2000") (pgdirOnePage 0x2007) = some rb ∧
      mon_modify 4 (modifyArgv "0x1000" "c" "W") (pgdirOnePage 0x2007) = some rm ∧ rm.ret = 0 ∧
      mon_showmappings 3 (showmappingsArgv "0x1000" "0x2000") rm.pgdir = some ra ∧
      rb.out = [showmappingsHeader,
        mappedRowText 0x1000 (PTE_ADDR 0x2007) (flagDigit 0x2007 PTE_U) '1'
          (flagDigit 0x2007 PTE_P)] ∧
      ra.out = [showmappingsHeader,
        mappedRowText 0x1000 (PTE_ADDR 0x2007) (flagDigit 0x2007 PTE_U) '0'
          (flagDigit 0x2007 PTE_P)] :=
  ⟨by decide, by decide,
    modify_then_showmappings (pgdirOnePage 0x2007) (0, 1) 0x2007 (by decide) (by decide)
      (by decide) (by decide) (by decide)⟩

/-! ## Return values and the monitor loop -/

/-- C11 fails on the code: each user-input error of a handler makes it return
-1, not zero. `showmappings` and `dump` without arguments, `dump` with the
origin `X`, `modify` on an address without second-level table and `modify`
with the operation `x` all make `runcmd` return -1, and `monitor`, given such
a line followed by `help`, leaves its loop without reading `help`. -/
theorem handler_errors_return_minus_one :
    observe (runcmd "showmappings".toList machineOnePage) =
      some (-1, ["Error: not enough parameter\n"], some 0x2007) ∧
    observe (runcmd "dump 0x1000 0x1004".toList machineOnePage) =
      some (-1, ["usage: mem [VA/PA(start)]  [VA/PA(end)] P|V \n"], some 0x2007) ∧
    observe (runcmd "dump 0x1000 0x1004 X".toList machineOnePage) =
      some (-1, ["usage: mem [VA/PA(start)]  [VA/PA(end)] P|V \n"], some 0x2007) ∧
    observe (runcmd "modify 0x400000 s P".toList machineOnePage) =
      some (-1, ["Page table entry not exist!\n"], some 0x2007) ∧
    observe (runcmd "modify 0x1000 x W".toList machineOnePage) =
      some (-1, ["Error: unknown option"], some 0x2007) ∧
    observe (runcmd "modify 0x1000 c X".toList machineOnePage) =
      some (-1, ["Error: unknown permission bit"], some 0x2007) ∧
    (monitor [some "showmappings".toList, some "help".toList] machineOnePage).map
      (fun t => (t.exited, t.unread, t.out.map String.mk)) =
      some (true, [some "help".toList],
        ["Welcome to the JOS kernel monitor!\n", "Type 'help' for a list of commands.\n",
         "Error: not enough parameter\n"]) ∧
    observe (runcmd "nosuchcommand".toList machineOnePage) =
      some (0, ["Unknown command 'nosuchcommand'\n"], some 0x2007) := by
  refine ⟨?_, ?_, ?_, ?_, ?_, ?_, ?_, ?_⟩ <;> decide

/-! ## `dump` -/

theorem getElem?_of_lt (argv : List (List Char)) (i : Nat) (h : i < argv.length) :
    ∃ a, argv[i]? = some a :=
  ⟨argv[i], List.getElem?_eq_getElem h⟩

theorem mon_dump_run (argc : Nat) (argv : List (List Char)) (mem : Memory)
    (a1 a2 a3 : List Char) (hargc : 4 ≤ argc)
    (h1 : argv[1]? = some a1) (h2 : argv[2]? = some a2) (h3 : argv[3]? = some a3)
    (ht : firstChar a3 = 'P' ∨ firstChar a3 = 'V') :
    mon_dump argc argv mem =
      some ⟨0,
        cprintf "startADDR: x endADDR:x cnt:%d\n"
            [FmtArg.num (dump_range (firstChar a3) (strtol16 a1) (strtol16 a2)).1,
             FmtArg.num (dump_range (firstChar a3) (strtol16 a1) (strtol16 a2)).2,
             FmtArg.num (dump_cnt (dump_range (firstChar a3) (strtol16 a1) (strtol16 a2)).1
               (dump_range (firstChar a3) (strtol16 a1) (strtol16 a2)).2)] ::
          (List.range (dump_cnt (dump_range (firstChar a3) (strtol16 a1) (strtol16 a2)).1
              (dump_range (firstChar a3) (strtol16 a1) (strtol16 a2)).2)).map (fun i =>
            cprintf "[x]:x\n"
              [FmtArg.num (dump_va (dump_range (firstChar a3) (strtol16 a1) (strtol16 a2)).1 i),
               FmtArg.num (load mem
                 (dump_va (dump_range (firstChar a3) (strtol16 a1) (strtol16 a2)).1 i))]),
        (List.range (dump_cnt (dump_range (firstChar a3) (strtol16 a1) (strtol16 a2)).1
            (dump_range (firstChar a3) (strtol16 a1) (strtol16 a2)).2)).map (fun i =>
          (dump_va (dump_range (firstChar a3) (strtol16 a1) (strtol16 a2)).1 i,
           load mem (dump_va (dump_range (firstChar a3) (strtol16 a1) (strtol16 a2)).1 i)))⟩ := by
  have hn : ¬ argc < 4 := by omega
  have hok : ¬ (firstChar a3 ≠ 'P' ∧ firstChar a3 ≠ 'V') := by
    rcases ht with h | h <;> simp [h]
  unfold mon_dump
  simp only [hn, if_false, h1, h2, h3]
  rw [if_neg hok]

theorem dump_range_physical (s e : Nat) (hs : s < WORD) (he : e < WORD) :
    dump_range 'P' ((s + WORD - KERNBASE) % WORD) ((e + WORD - KERNBASE) % WORD) =
      dump_range 'V' s e := by
  have h1 : ((s + WORD - KERNBASE) % WORD + KERNBASE) % WORD = s := by
    unfold WORD KERNBASE at *
    omega
  have h2 : ((e + WORD - KERNBASE) % WORD + KERNBASE) % WORD = e := by
    unfold WORD KERNBASE at *
    omega
  have hne : ¬ ('V' = 'P') := by decide
  simp only [dump_range, if_true, if_neg hne, h1, h2]

/-- C12: for every memory and all 32-bit addresses `s` and `e`, `dump` with an
origin token starting with `P` on `s - KERNBASE`, `e - KERNBASE` (32-bit
arithmetic) and `dump` with an origin token starting with `V` on `s`, `e` have
the same result: the same return value 0, the same text, and the same loads,
in number, addresses and loaded values; these are the loads of the words from
the rounded start on. -/
theorem dump_physical_matches_virtual (argc : Nat) (mem : Memory)
    (cmdV a1 a2 tV cmdP b1 b2 tP : List Char) (hargc : 4 ≤ argc)
    (hV : firstChar tV = 'V') (hP : firstChar tP = 'P')
    (h1 : strtol16 b1 = (strtol16 a1 + WORD - KERNBASE) % WORD)
    (h2 : strtol16 b2 = (strtol16 a2 + WORD - KERNBASE) % WORD) :
    mon_dump argc [cmdP, b1, b2, tP] mem = mon_dump argc [cmdV, a1, a2, tV] mem ∧
    ∃ r, mon_dump argc [cmdV, a1, a2, tV] mem = some r ∧ r.ret = 0 ∧
      r.reads = (List.range (dump_cnt (ROUNDUP (strtol16 a1) 4) (ROUNDUP (strtol16 a2) 4))).map
        (fun i => (dump_va (ROUNDUP (strtol16 a1) 4) i,
          load mem (dump_va (ROUNDUP (strtol16 a1) 4) i))) := by
  have hrV := mon_dump_run argc [cmdV, a1, a2, tV] mem a1 a2 tV hargc rfl rfl rfl (Or.inr hV)
  have hrP := mon_dump_run argc [cmdP, b1, b2, tP] mem b1 b2 tP hargc rfl rfl rfl (Or.inl hP)
  have hrange : dump_range (firstChar tP) (strtol16 b1) (strtol16 b2) =
      dump_range (firstChar tV) (strtol16 a1) (strtol16 a2) := by
    rw [hP, hV, h1, h2]
    exact dump_range_physical _ _ (strtol16_lt a1) (strtol16_lt a2)
  have hV2 : dump_range (firstChar tV) (strtol16 a1) (strtol16 a2) =
      (ROUNDUP (strtol16 a1) 4, ROUNDUP (strtol16 a2) 4) := by
    have hne : ¬ ('V' = 'P') := by decide
    rw [hV]
    simp only [dump_range, if_neg hne]
  constructor
  · rw [hrP, hrV, hrange]
  · refine ⟨_, hrV, rfl, ?_⟩
    simp only [hV2]

/-- Witness of C12: `dump 0x100000 0x100008 P` and `dump 0xf0100000 0xf0100008 V`. -/
theorem dump_physical_matches_virtual_witness :
    mon_dump 4 ["dump".toList, "0x100000".toList, "0x100008".toList, "P".toList]
        (memOneWord 7) =
      mon_dump 4 ["dump".toList, "0xf0100000".toList, "0xf0100008".toList, "V".toList]
        (memOneWord 7) ∧
    ∃ r, mon_dump 4 ["dump".toList, "0xf0100000".toList, "0xf0100008".toList, "V".toList]
        (memOneWord 7) = some r ∧ r.ret = 0 ∧
      r.reads = (List.range (dump_cnt (ROUNDUP (strtol16 "0xf0100000".toList) 4)
          (ROUNDUP (strtol16 "0xf0100008".toList) 4))).map
        (fun i => (dump_va (ROUNDUP (strtol16 "0xf0100000".toList) 4) i,
          load (memOneWord 7) (dump_va (ROUNDUP (strtol16 "0xf0100000".toList) 4) i))) :=
  dump_physical_matches_virtual 4 (memOneWord 7) "dump".toList "0xf0100000".toList
    "0xf0100008".toList "V".toList "dump".toList "0x100000".toList "0x100008".toList
    "P".toList (by decide) (by decide) (by decide) (by decide) (by decide)

/-- C13 fails on the code: `dump 0x1000 0x1008 V` loads the two words at
`0x1000` and `0x1004`, but the text written for them is the format string
itself, `[x]:x`, whatever the addresses and the loaded values are: two
memories with different words at `0x1000` give the same text. -/
theorem dump_lines_are_literal :
    (mon_dump 4 ["dump".toList, "0x1000".toList, "0x1008".toList, "V".toList]
        (memOneWord 0xdeadbeef)).map (fun r => (r.ret, r.reads, r.out.map String.mk)) =
      some (0, [(0x1000, 0xdeadbeef), (0x1004, 0)],
        ["startADDR: x endADDR:x cnt:4096\n", "[x]:x\n", "[x]:x\n"]) ∧
    (mon_dump 4 ["dump".toList, "0x1000".toList, "0x1008".toList, "V".toList]
        (memOneWord 0x12345678)).map (fun r => (r.ret, r.reads, r.out.map String.mk)) =
      some (0, [(0x1000, 0x12345678), (0x1004, 0)],
        ["startADDR: x endADDR:x cnt:4096\n", "[x]:x\n", "[x]:x\n"]) := by
  constructor <;> decide

/-- C14, as stated, fails: the endpoint `0xFFFFFFFD` is rounded to 0, which is
below it; in `dump 0xfffffff9 0xfffffffd V` the rounded end is 0 and the
rounded start `0xFFFFFFFC`. -/
theorem roundup_wraps_counterexample :
    ROUNDUP 0xFFFFFFFD 4 = 0 ∧
    dump_range 'V' (strtol16 "0xfffffff9".toList) (strtol16 "0xfffffffd".toList) =
      (0xFFFFFFFC, 0) ∧
    (mon_dump 4 ["dump".toList, "0xfffffff9".toList, "0xfffffffd".toList, "V".toList]
        (memOneWord 0)).map (fun r => (r.ret, r.reads)) = some (0, [(0xFFFFFFFC, 0)]) := by
  refine ⟨?_, ?_, ?_⟩ <;> decide

/-- C14, amended: for every 32-bit endpoint `a` up to `0xFFFFFFFC`, the rounded
endpoint is the least multiple of 4 that is greater than or equal to `a`: it
is a multiple of 4, not below `a`, below `a + 4`, not above any multiple of 4
that is at least `a`, and equal to `a` when `a` is word-aligned. The three
endpoints above `0xFFFFFFFC` are rounded to 0. -/
theorem roundup_least_multiple (a : Nat) (ha : a < WORD) :
    (a ≤ 0xFFFFFFFC →
      ROUNDUP a 4 % 4 = 0 ∧ a ≤ ROUNDUP a 4 ∧ ROUNDUP a 4 < a + 4 ∧ ROUNDUP a 4 < WORD ∧
      (∀ m, m % 4 = 0 → a ≤ m → ROUNDUP a 4 ≤ m) ∧
      (a % 4 = 0 → ROUNDUP a 4 = a)) ∧
    (0xFFFFFFFC < a → ROUNDUP a 4 = 0) := by
  unfold ROUNDUP WORD at *
  constructor
  · intro h
    refine ⟨by omega, by omega, by omega, by omega, ?_, by omega⟩
    intro m hm ham
    omega
  · intro h
    omega

/-- Witness of the amended C14: the endpoint `0x1001` is rounded to `0x1004`. -/
theorem roundup_least_multiple_witness :
    ((0x1001 : Nat) ≤ 0xFFFFFFFC →
      ROUNDUP 0x1001 4 % 4 = 0 ∧ 0x1001 ≤ ROUNDUP 0x1001 4 ∧ ROUNDUP 0x1001 4 < 0x1001 + 4 ∧
      ROUNDUP 0x1001 4 < WORD ∧
      (∀ m, m % 4 = 0 → 0x1001 ≤ m → ROUNDUP 0x1001 4 ≤ m) ∧
      (0x1001 % 4 = 0 → ROUNDUP 0x1001 4 = 0x1001)) ∧
    (0xFFFFFFFC < 0x1001 → ROUNDUP 0x1001 4 = 0) :=
  roundup_least_multiple 0x1001 (by decide)

/-- C15: for every argument vector, if fewer than three arguments follow the
command name, or the origin token starts with neither `P` nor `V`, `dump`
prints the usage message and returns -1 without any load and without any
other text; otherwise it returns 0, its text starting with the summary line
and not with the usage message. -/
theorem dump_usage_errors (argv : List (List Char)) (mem : Memory) :
    ((argv.length < 4 ∨
        ∃ t, argv[3]? = some t ∧ firstChar t ≠ 'P' ∧ firstChar t ≠ 'V') →
      mon_dump argv.length argv mem = some ⟨-1, [dumpUsage], []⟩) ∧
    (¬ (argv.length < 4 ∨
        ∃ t, argv[3]? = some t ∧ firstChar t ≠ 'P' ∧ firstChar t ≠ 'V') →
      ∃ r, mon_dump argv.length argv mem = some r ∧ r.ret = 0 ∧
        r.out.length = 1 + r.reads.length ∧ r.out.head? ≠ some dumpUsage) := by
  constructor
  · rintro (hlt | ⟨t, h3, hbad⟩)
    · unfold mon_dump
      rw [if_pos hlt]
      rfl
    · by_cases hlt : argv.length < 4
      · unfold mon_dump
        rw [if_pos hlt]
        rfl
      · obtain ⟨a1, h1⟩ := getElem?_of_lt argv 1 (by omega)
        obtain ⟨a2, h2⟩ := getElem?_of_lt argv 2 (by omega)
        unfold mon_dump
        simp only [hlt, if_false, h1, h2, h3]
        rw [if_pos hbad]
        rfl
  · intro h
    have hlen : 4 ≤ argv.length := by
      by_contra hc
      exact h (Or.inl (by omega))
    obtain ⟨a1, h1⟩ := getElem?_of_lt argv 1 (by omega)
    obtain ⟨a2, h2⟩ := getElem?_of_lt argv 2 (by omega)
    obtain ⟨a3, h3⟩ := getElem?_of_lt argv 3 (by omega)
    have ht : firstChar a3 = 'P' ∨ firstChar a3 = 'V' := by
      by_contra hc
      apply h
      right
      refine ⟨a3, h3, ?_, ?_⟩
      · intro hp; exact hc (Or.inl hp)
      · intro hv; exact hc (Or.inr hv)
    refine ⟨_, mon_dump_run argv.length argv mem a1 a2 a3 hlen h1 h2 h3 ht, rfl, ?_, ?_⟩
    · simp only [List.length_cons, List.length_map, List.length_range]
      omega
    · simp only [List.head?_cons, ne_eq, Option.some.injEq]
      intro hu
      have hc := congrArg List.head? hu
      have hs : ∀ ap, (cprintf "startADDR: x endADDR:x cnt:%d\n" ap).head? = some 's' :=
        fun _ => rfl
      rw [hs] at hc
      exact absurd hc (by decide)

/-- Witness of C15: `dump 0x1000 0x1008` lacks the origin, and
`dump 0x1000 0x1008 V` is accepted. -/
theorem dump_usage_errors_witness :
    mon_dump 3 ["dump".toList, "0x1000".toList, "0x1008".toList] (memOneWord 7) =
      some ⟨-1, [dumpUsage], []⟩ ∧
    ∃ r, mon_dump 4 ["dump".toList, "0x1000".toList, "0x1008".toList, "V".toList]
        (memOneWord 7) = some r ∧ r.ret = 0 ∧
      r.out.length = 1 + r.reads.length ∧ r.out.head? ≠ some dumpUsage :=
  ⟨(dump_usage_errors ["dump".toList, "0x1000".toList, "0x1008".toList] (memOneWord 7)).1
      (Or.inl (by decide)),
    (dump_usage_errors ["dump".toList, "0x1000".toList, "0x1008".toList, "V".toList]
      (memOneWord 7)).2 (by decide)⟩

/-! ## `backtrace` -/

theorem pairs_length (a b : Nat → List Char) (n j : Nat) :
    ((List.range' j n).flatMap (fun i => [a i, b i])).length = 2 * n := by
  induction n generalizing j with
  | zero => rfl
  | succ n ih =>
    rw [List.range'_succ, List.flatMap_cons, List.length_append, ih]
    simp only [List.length_cons, List.length_nil]
    omega

theorem pairs_index (a b : Nat → List Char) (n j k : Nat) (hk : k < n) :
    ((List.range' j n).flatMap (fun i => [a i, b i]))[2 * k]? = some (a (j + k)) ∧
    ((List.range' j n).flatMap (fun i => [a i, b i]))[2 * k + 1]? = some (b (j + k)) := by
  induction n generalizing j k with
  | zero => omega
  | succ n ih =>
    rw [List.range'_succ, List.flatMap_cons]
    cases k with
    | zero => exact ⟨by simp, by simp⟩
    | succ k =>
      have h1 : 2 * (k + 1) = (2 * k + 1) + 1 := by omega
      have h3 : j + (k + 1) = (j + 1) + k := by omega
      rw [h1, h3]
      show (a j :: b j :: _)[2 * k + 1 + 1]? = _ ∧ (a j :: b j :: _)[2 * k + 1 + 1 + 1]? = _
      simp only [List.getElem?_cons_succ]
      exact ih (j + 1) k (by omega)

theorem backtrace_loop_zero (d : Nat → Eipdebuginfo) (mem : Memory) (fuel : Nat) :
    backtrace_loop d mem fuel 0 = some [] := by
  cases fuel <;> simp [backtrace_loop]

theorem backtrace_loop_chain (d : Nat → Eipdebuginfo) (mem : Memory) (fp0 : Nat) (n : Nat) :
    ∀ (j fuel : Nat), n ≤ fuel →
      (∀ k, k < n → framePointer mem fp0 (j + k) ≠ 0) →
      framePointer mem fp0 (j + n) = 0 →
      backtrace_loop d mem fuel (framePointer mem fp0 j) =
        some ((List.range' j n).flatMap (fun k =>
          [backtrace_frame mem (framePointer mem fp0 k),
           backtrace_symbol d (frameWord mem (framePointer mem fp0 k) 1)])) := by
  induction n with
  | zero =>
    intro j fuel _ _ hz
    rw [Nat.add_zero] at hz
    rw [hz]
    exact backtrace_loop_zero d mem fuel
  | succ n ih =>
    intro j fuel hfuel hnz hz
    cases fuel with
    | zero => omega
    | succ fuel =>
      have h0 : framePointer mem fp0 j ≠ 0 := by
        have := hnz 0 (by omega)
        rwa [Nat.add_zero] at this
      have hnext : load mem (framePointer mem fp0 j) = framePointer mem fp0 (j + 1) := rfl
      have hrec := ih (j + 1) fuel (by omega)
        (fun k hk => by
          have := hnz (k + 1) (by omega)
          have e : j + (k + 1) = j + 1 + k := by omega
          rwa [e] at this)
        (by
          have e : j + (n + 1) = j + 1 + n := by omega
          rwa [e] at hz)
      rw [backtrace_loop, if_neg h0, hnext, hrec, List.range'_succ, List.flatMap_cons]
      rfl

theorem backtrace_loop_short (d : Nat → Eipdebuginfo) (mem : Memory) (fp0 : Nat) (fuel : Nat) :
    ∀ (j n : Nat), fuel < n →
      (∀ k, k < n → framePointer mem fp0 (j + k) ≠ 0) →
      backtrace_loop d mem fuel (framePointer mem fp0 j) = none := by
  induction fuel with
  | zero =>
    intro j n hn hnz
    have h0 : framePointer mem fp0 j ≠ 0 := by
      have := hnz 0 (by omega)
      rwa [Nat.add_zero] at this
    rw [backtrace_loop, if_neg h0]
  | succ fuel ih =>
    intro j n hn hnz
    have h0 : framePointer mem fp0 j ≠ 0 := by
      have := hnz 0 (by omega)
      rwa [Nat.add_zero] at this
    have hnext : load mem (framePointer mem fp0 j) = framePointer mem fp0 (j + 1) := rfl
    have hrec := ih (j + 1) (n - 1) (by omega)
      (fun k hk => by
        have := hnz (k + 1) (by omega)
        have e : j + (k + 1) = j + 1 + k := by omega
        rwa [e] at this)
    rw [backtrace_loop, if_neg h0, hnext, hrec]
    rfl

theorem backtrace_frame_text (mem : Memory) (ebp : Nat) :
    backtrace_frame mem ebp =
      frameLineText ebp (frameWord mem ebp 1) (frameWord mem ebp 2) (frameWord mem ebp 3)
        (frameWord mem ebp 4) (frameWord mem ebp 5) (frameWord mem ebp 6) := by
  have h1 : ∀ x, cprintf "ebp %08x " [FmtArg.num x] = "ebp ".toList ++ hex8 x ++ " ".toList :=
    fun _ => rfl
  have h2 : ∀ x, cprintf "eip %08x args" [FmtArg.num x] =
      "eip ".toList ++ hex8 x ++ " args".toList := fun _ => rfl
  have h3 : ∀ x, cprintf " %08x" [FmtArg.num x] = " ".toList ++ hex8 x := fun _ => by
    show _ = ' ' :: hex8 _
    simp [cprintf, vprintfmt, fmtSwitch, processPrecision, nextNum, hex8]
  have h4 : cprintf "\n" [] = "\n".toList := rfl
  unfold backtrace_frame frameLineText
  rw [h1, h2, h3, h3, h3, h3, h3, h4]
  simp only [List.append_assoc]
  rfl

/-- C16: for every memory, symbol resolver and starting frame pointer whose
chain of saved frame pointers has exactly `N` non-zero frame pointers before
reaching zero, the loop of `backtrace` ends after `N` iterations (any bound of
at least `N` iterations gives the result, any smaller bound does not): it
returns 0 and writes, after the heading, `N` frame lines, each followed by
its symbol line. The k-th frame line carries, as eight hexadecimal digits
each, the k-th frame pointer `fp` of the chain, the return address, which is
the word stored at `fp + 4`, and the five argument words stored at `fp + 8`,
`fp + 12`, `fp + 16`, `fp + 20` and `fp + 24`; its symbol line is the one of
that return address. For a null starting frame pointer only the heading is
written. -/
theorem backtrace_follows_chain (d : Nat → Eipdebuginfo) (mem : Memory) (fp0 N fuel : Nat)
    (hnz : ∀ k, k < N → framePointer mem fp0 k ≠ 0)
    (hz : framePointer mem fp0 N = 0) :
    (N ≤ fuel →
      ∃ lines, mon_backtrace fuel d mem fp0 =
          some (0, "Stack backtrace:\n".toList :: lines) ∧
        lines.length = 2 * N ∧
        ∀ k, k < N →
          lines[2 * k]? = some (frameLineText (framePointer mem fp0 k)
            (storedWord mem (framePointer mem fp0 k + 4))
            (storedWord mem (framePointer mem fp0 k + 8))
            (storedWord mem (framePointer mem fp0 k + 12))
            (storedWord mem (framePointer mem fp0 k + 16))
            (storedWord mem (framePointer mem fp0 k + 20))
            (storedWord mem (framePointer mem fp0 k + 24))) ∧
          lines[2 * k + 1]? =
            some (backtrace_symbol d (storedWord mem (framePointer mem fp0 k + 4)))) ∧
    (fuel < N → mon_backtrace fuel d mem fp0 = none) ∧
    mon_backtrace fuel d mem 0 = some (0, ["Stack backtrace:\n".toList]) := by
  have hword : ∀ ebp : Nat,
      frameWord mem ebp 1 = storedWord mem (ebp + 4) ∧
      frameWord mem ebp 2 = storedWord mem (ebp + 8) ∧
      frameWord mem ebp 3 = storedWord mem (ebp + 12) ∧
      frameWord mem ebp 4 = storedWord mem (ebp + 16) ∧
      frameWord mem ebp 5 = storedWord mem (ebp + 20) ∧
      frameWord mem ebp 6 = storedWord mem (ebp + 24) :=
    fun _ => ⟨rfl, rfl, rfl, rfl, rfl, rfl⟩
  refine ⟨?_, ?_, ?_⟩
  · intro hfuel
    have hloop := backtrace_loop_chain d mem fp0 N 0 fuel hfuel
      (fun k hk => by rw [Nat.zero_add]; exact hnz k hk)
      (by rw [Nat.zero_add]; exact hz)
    refine ⟨(List.range' 0 N).flatMap (fun k =>
        [backtrace_frame mem (framePointer mem fp0 k),
         backtrace_symbol d (frameWord mem (framePointer mem fp0 k) 1)]),
      ?_, pairs_length _ _ N 0, ?_⟩
    · unfold mon_backtrace
      have e : fp0 % WORD = framePointer mem fp0 0 := rfl
      rw [e, hloop]
      rfl
    · intro k hk
      have h := pairs_index
        (fun i => backtrace_frame mem (framePointer mem fp0 i))
        (fun i => backtrace_symbol d (frameWord mem (framePointer mem fp0 i) 1)) N 0 k hk
      rw [Nat.zero_add] at h
      obtain ⟨w1, w2, w3, w4, w5, w6⟩ := hword (framePointer mem fp0 k)
      rw [← w1, ← w2, ← w3, ← w4, ← w5, ← w6, ← backtrace_frame_text]
      exact h
  · intro hfuel
    have hloop := backtrace_loop_short d mem fp0 fuel 0 N hfuel
      (fun k hk => by rw [Nat.zero_add]; exact hnz k hk)
    unfold mon_backtrace
    have e : fp0 % WORD = framePointer mem fp0 0 := rfl
    rw [e, hloop]
    rfl
  · unfold mon_backtrace
    have e : 0 % WORD = 0 := by decide
    rw [e, backtrace_loop_zero]
    rfl

/-- Witness of C16: the chain `0x2000`, `0x1000`, 0 of two frames, in a memory
whose other words hold their own addresses; the text is written out in full. -/
theorem backtrace_follows_chain_witness :
    framePointer memTwoFrames 0x2000 0 = 0x2000 ∧
    framePointer memTwoFrames 0x2000 1 = 0x1000 ∧
    framePointer memTwoFrames 0x2000 2 = 0 ∧
    (mon_backtrace 5 resolverConst memTwoFrames 0x2000).map
        (fun r => (r.1, r.2.map String.mk)) =
      some (0,
        ["Stack backtrace:\n",
         "ebp 00002000 eip f0100456 args 00002008 0000200c 00002010 00002014 00002018\n",
         "\tkern/init.c:24: test_backtrace+1046\n",
         "ebp 00001000 eip f0100123 args 00001008 0000100c 00001010 00001014 00001018\n",
         "\tkern/init.c:24: test_backtrace+227\n"]) ∧
    (frameLineText 0x2000 0xf0100456 0x2008 0x200c 0x2010 0x2014 0x2018 =
      "ebp 00002000 eip f0100456 args 00002008 0000200c 00002010 00002014 00002018\n".toList) ∧
    (∃ lines, mon_backtrace 5 resolverConst memTwoFrames 0x2000 =
        some (0, "Stack backtrace:\n".toList :: lines) ∧
      lines.length = 2 * 2 ∧
      ∀ k, k < 2 →
        lines[2 * k]? = some (frameLineText (framePointer memTwoFrames 0x2000 k)
          (storedWord memTwoFrames (framePointer memTwoFrames 0x2000 k + 4))
          (storedWord memTwoFrames (framePointer memTwoFrames 0x2000 k + 8))
          (storedWord memTwoFrames (framePointer memTwoFrames 0x2000 k + 12))
          (storedWord memTwoFrames (framePointer memTwoFrames 0x2000 k + 16))
          (storedWord memTwoFrames (framePointer memTwoFrames 0x2000 k + 20))
          (storedWord memTwoFrames (framePointer memTwoFrames 0x2000 k + 24))) ∧
        lines[2 * k + 1]? = some (backtrace_symbol resolverConst
          (storedWord memTwoFrames (framePointer memTwoFrames 0x2000 k + 4)))) ∧
    mon_backtrace 1 resolverConst memTwoFrames 0x2000 = none :=
  ⟨by decide, by decide, by decide, by decide, by decide,
    (backtrace_follows_chain resolverConst memTwoFrames 0x2000 2 5 (by decide) (by decide)).1
      (by decide),
    (backtrace_follows_chain resolverConst memTwoFrames 0x2000 2 1 (by decide) (by decide)).2.1
      (by decide)⟩

/-! ## The page count and the arguments read -/

/-- C18: for all 32-bit start and end addresses given as the two arguments,
whatever their order, `showmappings` writes the header and
`(((end - start) mod 2^32) >> 12) & 0xFFFFFF` rows; this count is below
`2^20`, and the mask leaves the shifted difference as it is. -/
theorem showmappings_row_count (argc : Nat) (argv : List (List Char))
    (kern_pgdir : PageDirectory) (a1 a2 : List Char) (s e : Nat) (hargc : 3 ≤ argc)
    (h1 : argv[1]? = some a1) (h2 : argv[2]? = some a2)
    (hs : strtol16 a1 = s) (he : strtol16 a2 = e) :
    s < 2 ^ 32 ∧ e < 2 ^ 32 ∧
    ∃ r, mon_showmappings argc argv kern_pgdir = some r ∧ r.ret = 0 ∧
      r.out.length = 1 + ((((e + 2 ^ 32 - s) % 2 ^ 32) >>> 12) &&& 0xFFFFFF) ∧
      ((((e + 2 ^ 32 - s) % 2 ^ 32) >>> 12) &&& 0xFFFFFF) < 2 ^ 20 ∧
      (((e + 2 ^ 32 - s) % 2 ^ 32) >>> 12) &&& 0xFFFFFF = ((e + 2 ^ 32 - s) % 2 ^ 32) >>> 12 := by
  have hsw : s < 2 ^ 32 := by rw [← hs]; exact strtol16_lt a1
  have hew : e < 2 ^ 32 := by rw [← he]; exact strtol16_lt a2
  have h24 : (0xFFFFFF : Nat) = 2 ^ 24 - 1 := by norm_num
  have hd : (e + 2 ^ 32 - s) % 2 ^ 32 < 2 ^ 32 := Nat.mod_lt _ (by norm_num)
  have hshift : ((e + 2 ^ 32 - s) % 2 ^ 32) >>> 12 < 2 ^ 20 := by
    rw [Nat.shiftRight_eq_div_pow]
    apply Nat.div_lt_of_lt_mul
    calc (e + 2 ^ 32 - s) % 2 ^ 32 < 2 ^ 32 := hd
      _ = 2 ^ 12 * 2 ^ 20 := by norm_num
  have hmask : (((e + 2 ^ 32 - s) % 2 ^ 32) >>> 12) &&& 0xFFFFFF =
      ((e + 2 ^ 32 - s) % 2 ^ 32) >>> 12 := by
    rw [h24, Nat.and_pow_two_sub_one_eq_mod]
    exact Nat.mod_eq_of_lt (lt_trans hshift (by norm_num))
  have hrun := mon_showmappings_run argc argv kern_pgdir a1 a2 hargc h1 h2
  rw [hs, he] at hrun
  refine ⟨hsw, hew, _, hrun, rfl, ?_, ?_, hmask⟩
  · simp only [List.length_cons, List.length_map, List.length_range]
    have : showmappings_cnt s e =
        ((((e + 2 ^ 32 - s) % 2 ^ 32) >>> 12) &&& 0xFFFFFF) := rfl
    omega
  · rw [hmask]
    exact hshift

/-- Witness of C18: `showmappings 0x3000 0x1000`, whose end is below its start. -/
theorem showmappings_row_count_witness :
    (0x3000 : Nat) < 2 ^ 32 ∧ (0x1000 : Nat) < 2 ^ 32 ∧
    ∃ r, mon_showmappings 3 (showmappingsArgv "0x3000" "0x1000") (pgdirOnePage 0x2007) =
        some r ∧ r.ret = 0 ∧
      r.out.length = 1 + ((((0x1000 + 2 ^ 32 - 0x3000) % 2 ^ 32) >>> 12) &&& 0xFFFFFF) ∧
      ((((0x1000 + 2 ^ 32 - 0x3000) % 2 ^ 32) >>> 12) &&& 0xFFFFFF) < 2 ^ 20 ∧
      (((0x1000 + 2 ^ 32 - 0x3000) % 2 ^ 32) >>> 12) &&& 0xFFFFFF =
        ((0x1000 + 2 ^ 32 - 0x3000) % 2 ^ 32) >>> 12 :=
  showmappings_row_count 3 (showmappingsArgv "0x3000" "0x1000") (pgdirOnePage 0x2007)
    "0x3000".toList "0x1000".toList 0x3000 0x1000 (by decide) rfl rfl (by decide) (by decide)

/-- C19 fails on the code for `modify`: `showmappings` and `dump` test `argc`
before they read an argument and so never read past the argument vector, but
`modify` has no such test. The line `modify` makes it read `argv[1]`, the line
`modify 0x1000` makes it read `argv[2]`, and the line `modify 0x1000 c` makes it
read `argv[3]`, each at the index `argc`. -/
theorem modify_reads_missing_arguments :
    (∀ (argv : List (List Char)) (kern_pgdir : PageDirectory),
      (mon_showmappings argv.length argv kern_pgdir).isSome = true) ∧
    (∀ (argv : List (List Char)) (mem : Memory),
      (mon_dump argv.length argv mem).isSome = true) ∧
    observe (mon_modify 1 ["modify".toList] (pgdirOnePage 0x2007)) = none ∧
    observe (runcmd "modify".toList machineOnePage) = none ∧
    observe (runcmd "modify 0x1000".toList machineOnePage) = none ∧
    observe (runcmd "modify 0x1000 c".toList machineOnePage) = none ∧
    observe (runcmd "modify 0x1000 c W".toList machineOnePage) = some (0, [], some 0x2005) := by
  refine ⟨?_, ?_, by decide, by decide, by decide, by decide, by decide⟩
  · intro argv kern_pgdir
    by_cases hlt : argv.length < 3
    · unfold mon_showmappings
      rw [if_pos hlt]
      rfl
    · obtain ⟨a1, h1⟩ := getElem?_of_lt argv 1 (by omega)
      obtain ⟨a2, h2⟩ := getElem?_of_lt argv 2 (by omega)
      rw [mon_showmappings_run argv.length argv kern_pgdir a1 a2 (by omega) h1 h2]
      rfl
  · intro argv mem
    by_cases hlt : argv.length < 4
    · unfold mon_dump
      rw [if_pos hlt]
      rfl
    · obtain ⟨a1, h1⟩ := getElem?_of_lt argv 1 (by omega)
      obtain ⟨a2, h2⟩ := getElem?_of_lt argv 2 (by omega)
      obtain ⟨a3, h3⟩ := getElem?_of_lt argv 3 (by omega)
      by_cases ht : firstChar a3 = 'P' ∨ firstChar a3 = 'V'
      · rw [mon_dump_run argv.length argv mem a1 a2 a3 (by omega) h1 h2 h3 ht]
        rfl
      · have hbad : firstChar a3 ≠ 'P' ∧ firstChar a3 ≠ 'V' :=
          ⟨fun h => ht (Or.inl h), fun h => ht (Or.inr h)⟩
        unfold mon_dump
        simp only [hlt, if_false, h1, h2, h3]
        rw [if_pos hbad]
        rfl

/-! ## The parsing loop of `runcmd` -/

theorem strchr_whitespace (c : Char) : strchr WHITESPACE c = isWhitespace c := by
  unfold strchr WHITESPACE isWhitespace
  show List.elem c ['\t', '\r', '\n', ' '] = _
  by_cases h1 : c = '\t'
  · subst h1; rfl
  · by_cases h2 : c = '\r'
    · subst h2; rfl
    · by_cases h3 : c = '\n'
      · subst h3; rfl
      · by_cases h4 : c = ' '
        · subst h4; rfl
        · have e1 : (c == '\t') = false := by simpa using h1
          have e2 : (c == '\r') = false := by simpa using h2
          have e3 : (c == '\n') = false := by simpa using h3
          have e4 : (c == ' ') = false := by simpa using h4
          have hl : List.elem c ['\t', '\r', '\n', ' '] = false := by
            simp only [List.elem, e1, e2, e3, e4]
          rw [hl]
          simp [h1, h2, h3, h4]

theorem gobble_eq :
    (fun c => strchr WHITESPACE c) = isWhitespace := by
  funext c
  exact strchr_whitespace c

theorem scan_eq :
    (fun x => !strchr WHITESPACE x) = (fun x => !isWhitespace x) := by
  funext c
  rw [strchr_whitespace]

theorem tokens_nil : tokens [] = [] := rfl

theorem tokens_cons_whitespace (c : Char) (l : List Char) (hc : isWhitespace c = true) :
    tokens (c :: l) = tokens l := by
  unfold tokens
  rw [List.splitOnP_cons, if_pos hc]
  rfl

theorem tokens_dropWhile (l : List Char) : tokens (l.dropWhile isWhitespace) = tokens l := by
  induction l with
  | nil => rfl
  | cons c l ih =>
    by_cases hc : isWhitespace c = true
    · rw [List.dropWhile_cons_of_pos hc, ih, tokens_cons_whitespace c l hc]
    · rw [List.dropWhile_cons_of_neg hc]

theorem tokens_word (tok rest : List Char) (hne : tok ≠ [])
    (htok : ∀ x ∈ tok, ¬ isWhitespace x = true)
    (hrest : rest = [] ∨ ∃ sep r, rest = sep :: r ∧ isWhitespace sep = true) :
    tokens (tok ++ rest) = tok :: tokens rest := by
  have hkeep : (!tok.isEmpty) = true := by
    cases tok with
    | nil => exact absurd rfl hne
    | cons _ _ => rfl
  rcases hrest with h | ⟨sep, r, h, hsep⟩
  · subst h
    unfold tokens
    rw [List.append_nil, List.splitOnP_eq_single isWhitespace tok htok]
    simp [hkeep]
  · subst h
    unfold tokens
    rw [List.splitOnP_first isWhitespace tok htok sep hsep r, List.splitOnP_cons, if_pos hsep]
    simp [hkeep]

theorem dropWhile_head (p : Char → Bool) (l : List Char) :
    l.dropWhile p = [] ∨ ∃ c r, l.dropWhile p = c :: r ∧ ¬ p c = true := by
  induction l with
  | nil => exact Or.inl rfl
  | cons c l ih =>
    by_cases hc : p c = true
    · rw [List.dropWhile_cons_of_pos hc]; exact ih
    · rw [List.dropWhile_cons_of_neg hc]; exact Or.inr ⟨c, l, rfl, hc⟩

theorem takeWhile_all (p : Char → Bool) (l : List Char) : ∀ x ∈ l.takeWhile p, p x = true := by
  induction l with
  | nil => intro x hx; simp at hx
  | cons c l ih =>
    intro x hx
    by_cases hc : p c = true
    · rw [List.takeWhile_cons_of_pos hc] at hx
      rcases List.mem_cons.1 hx with h | h
      · rw [h]; exact hc
      · exact ih x h
    · rw [List.takeWhile_cons_of_neg hc] at hx
      simp at hx

theorem parseArgs_tokens (fuel : Nat) :
    ∀ (buf : List Char) (acc : List (List Char)), buf.length < fuel → acc.length ≤ 15 →
      parseArgs fuel buf acc =
        some (if acc.length + (tokens buf).length ≤ 15
          then ParseResult.args (acc ++ tokens buf) else ParseResult.tooMany) := by
  induction fuel with
  | zero => intro buf acc h; omega
  | succ fuel ih =>
    intro buf acc hlen hacc
    have htd := tokens_dropWhile buf
    have hsub : (buf.dropWhile isWhitespace).length ≤ buf.length :=
      (List.dropWhile_sublist isWhitespace).length_le
    unfold parseArgs
    rw [gobble_eq, scan_eq]
    cases hd : buf.dropWhile isWhitespace with
    | nil =>
      rw [hd, tokens_nil] at htd
      rw [← htd]
      simp [hacc]
    | cons c rest =>
      simp only
      have hc : ¬ isWhitespace c = true := by
        rcases dropWhile_head isWhitespace buf with h | ⟨c1, r1, h, hc1⟩
        · rw [h] at hd; cases hd
        · rw [h] at hd
          cases hd
          exact hc1
      have hc2 : (!isWhitespace c) = true := by simpa using hc
      have htake : (c :: rest).takeWhile (fun x => !isWhitespace x) =
          c :: rest.takeWhile (fun x => !isWhitespace x) := by
        simp [List.takeWhile, hc2]
      have hdrop : (c :: rest).dropWhile (fun x => !isWhitespace x) =
          rest.dropWhile (fun x => !isWhitespace x) := by
        simp [List.dropWhile, hc2]
      have hsplit := List.takeWhile_append_dropWhile (fun x => !isWhitespace x) (c :: rest)
      have htokne : (c :: rest).takeWhile (fun x => !isWhitespace x) ≠ [] := by
        rw [htake]
        exact List.cons_ne_nil _ _
      have htokall : ∀ x ∈ (c :: rest).takeWhile (fun x => !isWhitespace x),
          ¬ isWhitespace x = true := by
        intro x hx
        have := takeWhile_all (fun x => !isWhitespace x) (c :: rest) x hx
        simpa using this
      have hresthead : (c :: rest).dropWhile (fun x => !isWhitespace x) = [] ∨
          ∃ sep r, (c :: rest).dropWhile (fun x => !isWhitespace x) = sep :: r ∧
            isWhitespace sep = true := by
        rcases dropWhile_head (fun x => !isWhitespace x) (c :: rest) with h | ⟨c1, r1, h, hc1⟩
        · exact Or.inl h
        · exact Or.inr ⟨c1, r1, h, by simpa using hc1⟩
      have hword := tokens_word _ _ htokne htokall hresthead
      rw [hsplit] at hword
      rw [hd] at htd
      have htoks : tokens buf = (c :: rest).takeWhile (fun x => !isWhitespace x) ::
          tokens ((c :: rest).dropWhile (fun x => !isWhitespace x)) := htd.symm.trans hword
      have hrestlen : ((c :: rest).dropWhile (fun x => !isWhitespace x)).length < fuel := by
        rw [hdrop]
        have h1 : (rest.dropWhile (fun x => !isWhitespace x)).length ≤ rest.length :=
          (List.dropWhile_sublist _).length_le
        rw [hd] at hsub
        simp only [List.length_cons] at hsub
        omega
      by_cases h15 : acc.length = MAXARGS - 1
      · rw [if_pos h15]
        have h15b : acc.length = 15 := h15
        rw [htoks]
        simp only [List.length_cons]
        rw [if_neg (by omega)]
      · rw [if_neg h15]
        have h15b : acc.length ≠ 15 := h15
        rw [ih _ _ hrestlen (by simp only [List.length_append, List.length_singleton]; omega),
          htoks]
        simp only [List.length_append, List.length_singleton, List.length_cons,
          List.length_nil, Nat.zero_add, List.append_assoc, List.singleton_append]
        by_cases hle : acc.length + 1 +
            (tokens ((c :: rest).dropWhile (fun x => !isWhitespace x))).length ≤ 15
        · rw [if_pos hle, if_pos (by omega)]
        · rw [if_neg hle, if_neg (by omega)]

theorem parseArgs_line (buf : List Char) :
    parseArgs (buf.length + 1) buf [] =
      some (if (tokens buf).length ≤ 15
        then ParseResult.args (tokens buf) else ParseResult.tooMany) := by
  have h := parseArgs_tokens (buf.length + 1) buf [] (by omega) (by simp)
  simpa using h

theorem splitOnP_pieces (p : Char → Bool) (l : List Char) :
    ∀ t ∈ l.splitOnP p, ∀ c ∈ t, c ∈ l ∧ ¬ p c = true := by
  induction l with
  | nil =>
    intro t ht c hc
    rw [List.splitOnP_nil, List.mem_singleton] at ht
    subst ht
    simp at hc
  | cons x xs ih =>
    intro t ht c hc
    rw [List.splitOnP_cons] at ht
    by_cases hx : p x = true
    · rw [if_pos hx] at ht
      rcases List.mem_cons.1 ht with h | h
      · subst h; simp at hc
      · exact ⟨List.mem_cons_of_mem _ (ih t h c hc).1, (ih t h c hc).2⟩
    · rw [if_neg hx] at ht
      cases hsp : xs.splitOnP p with
      | nil => exact absurd hsp (List.splitOnP_ne_nil p xs)
      | cons h tl =>
        rw [hsp, List.modifyHead_cons] at ht
        rcases List.mem_cons.1 ht with e | e
        · subst e
          rcases List.mem_cons.1 hc with e2 | e2
          · subst e2
            exact ⟨List.mem_cons_self _ _, hx⟩
          · have := ih h (by rw [hsp]; exact List.mem_cons_self _ _) c e2
            exact ⟨List.mem_cons_of_mem _ this.1, this.2⟩
        · have := ih t (by rw [hsp]; exact List.mem_cons_of_mem _ e) c hc
          exact ⟨List.mem_cons_of_mem _ this.1, this.2⟩

theorem tokens_pieces (buf t : List Char) (ht : t ∈ tokens buf) :
    t ≠ [] ∧ ∀ c ∈ t, c ∈ buf ∧ isWhitespace c = false := by
  unfold tokens at ht
  rw [List.mem_filter] at ht
  constructor
  · intro h
    rw [h] at ht
    simp at ht
  · intro c hc
    have := splitOnP_pieces isWhitespace buf t ht.1 c hc
    exact ⟨this.1, by simpa using this.2⟩

theorem tokens_all_whitespace (buf : List Char) (h : ∀ c ∈ buf, isWhitespace c = true) :
    tokens buf = [] := by
  induction buf with
  | nil => rfl
  | cons c l ih =>
    rw [tokens_cons_whitespace c l (h c (List.mem_cons_self _ _))]
    exact ih (fun x hx => h x (List.mem_cons_of_mem _ hx))

theorem toNat_ne_zero (c : Char) (h : c ≠ Char.ofNat 0) : (c.toNat : Int) ≠ 0 := by
  intro hz
  apply h
  have hn : c.toNat = 0 := by exact_mod_cast hz
  rw [← Char.ofNat_toNat c, hn]

theorem toNat_diff_ne_zero (c d : Char) (h : c ≠ d) : (c.toNat : Int) - (d.toNat : Int) ≠ 0 := by
  intro hz
  apply h
  have hn : c.toNat = d.toNat := by omega
  rw [← Char.ofNat_toNat c, ← Char.ofNat_toNat d, hn]

theorem strcmp_eq_zero (p : List Char) :
    ∀ q : List Char, (∀ c ∈ p, c ≠ Char.ofNat 0) → (∀ c ∈ q, c ≠ Char.ofNat 0) →
      strcmp p q = 0 → p = q := by
  induction p with
  | nil =>
    intro q _ hq h
    cases q with
    | nil => rfl
    | cons d q =>
      exfalso
      simp only [strcmp] at h
      exact toNat_ne_zero d (hq d (List.mem_cons_self _ _)) (by omega)
  | cons c p ih =>
    intro q hp hq h
    cases q with
    | nil =>
      exfalso
      simp only [strcmp] at h
      exact toNat_ne_zero c (hp c (List.mem_cons_self _ _)) h
    | cons d q =>
      simp only [strcmp] at h
      by_cases hcd : c = d
      · rw [if_pos hcd] at h
        rw [hcd, ih q (fun x hx => hp x (List.mem_cons_of_mem _ hx))
          (fun x hx => hq x (List.mem_cons_of_mem _ hx)) h]
      · rw [if_neg hcd] at h
        exact absurd h (toNat_diff_ne_zero c d hcd)

theorem headD_of_head? (argv : List (List Char)) (tok : List Char)
    (h : argv.head? = some tok) : argv.headD [] = tok := by
  cases argv with
  | nil => simp at h
  | cons a l =>
    simp only [List.head?_cons, Option.some.injEq] at h
    simpa using h

theorem lookup_commands (m : Machine) (argv : List (List Char)) :
    lookup m argv commands =
      if strcmp (argv.headD []) "help".toList = 0 then help_func argv.length argv m
      else if strcmp (argv.headD []) "kerninfo".toList = 0 then kerninfo_func argv.length argv m
      else if strcmp (argv.headD []) "showmappings".toList = 0 then
        showmappings_func argv.length argv m
      else if strcmp (argv.headD []) "modify".toList = 0 then modify_func argv.length argv m
      else if strcmp (argv.headD []) "dump".toList = 0 then dump_func argv.length argv m
      else some ⟨0, [cprintf "Unknown command '%s'\n" [FmtArg.str (argv.headD [])]],
        m.kern_pgdir⟩ := rfl

theorem runcmd_tokens (buf : List Char) (m : Machine) :
    runcmd buf m =
      if (tokens buf).length ≤ 15 then
        (if (tokens buf).length = 0 then some ⟨0, [], m.kern_pgdir⟩
         else lookup m (tokens buf) commands)
      else
        some ⟨0, [cprintf "Too many arguments (max %d)\n" [FmtArg.num MAXARGS]],
          m.kern_pgdir⟩ := by
  unfold runcmd
  rw [parseArgs_line]
  by_cases h : (tokens buf).length ≤ 15
  · simp only [if_pos h]
  · simp only [if_neg h]

/-- C17: for every line (a string without NUL) that the parsing loop accepts,
that is with at most 15 tokens: when the line is empty or all whitespace,
`runcmd` returns 0, writes nothing and changes nothing; when the first token
is the name of no entry of the table (help, kerninfo, showmappings, modify,
dump), it returns 0, writes the Unknown command message and changes nothing;
and when the first token is the name of an entry, the result of `runcmd` is
the result of the function of that entry applied to the number of tokens and
the whole token vector. -/
theorem runcmd_dispatch (buf : List Char) (m : Machine)
    (hnul : ∀ c ∈ buf, c ≠ Char.ofNat 0) (hlen : (tokens buf).length ≤ 15) :
    commands.map (fun c => c.name) =
      ["help".toList, "kerninfo".toList, "showmappings".toList, "modify".toList,
       "dump".toList] ∧
    ((∀ c ∈ buf, isWhitespace c = true) → runcmd buf m = some ⟨0, [], m.kern_pgdir⟩) ∧
    (∀ tok, (tokens buf).head? = some tok →
      ((∀ c ∈ commands, tok ≠ c.name) →
        runcmd buf m =
          some ⟨0, [cprintf "Unknown command '%s'\n" [FmtArg.str tok]], m.kern_pgdir⟩) ∧
      (∀ c ∈ commands, tok = c.name →
        runcmd buf m = c.func (tokens buf).length (tokens buf) m)) := by
  refine ⟨rfl, ?_, ?_⟩
  · intro hws
    rw [runcmd_tokens, tokens_all_whitespace buf hws]
    rfl
  · intro tok htok
    have hne : ¬ (tokens buf).length = 0 := by
      intro h0
      rw [List.length_eq_zero] at h0
      rw [h0] at htok
      simp at htok
    have hrun : runcmd buf m = lookup m (tokens buf) commands := by
      rw [runcmd_tokens, if_pos hlen, if_neg hne]
    have hhead := headD_of_head? (tokens buf) tok htok
    have hmem : tok ∈ tokens buf := List.mem_of_mem_head? htok
    have htoknul : ∀ c ∈ tok, c ≠ Char.ofNat 0 :=
      fun c hc => hnul c ((tokens_pieces buf tok hmem).2 c hc).1
    constructor
    · intro hnone
      have hneq : ∀ name : List Char, (∀ c ∈ name, c ≠ Char.ofNat 0) → tok ≠ name →
          ¬ strcmp tok name = 0 :=
        fun name hname hdiff h0 => hdiff (strcmp_eq_zero tok name htoknul hname h0)
      have hall : ∀ name ∈ commands.map (fun c => c.name), tok ≠ name := by
        intro name hn
        obtain ⟨c, hc, hcn⟩ := List.mem_map.1 hn
        rw [← hcn]
        exact hnone c hc
      have n1 := hneq "help".toList (by decide) (hall _ (by decide))
      have n2 := hneq "kerninfo".toList (by decide) (hall _ (by decide))
      have n3 := hneq "showmappings".toList (by decide) (hall _ (by decide))
      have n4 := hneq "modify".toList (by decide) (hall _ (by decide))
      have n5 := hneq "dump".toList (by decide) (hall _ (by decide))
      rw [hrun, lookup_commands, hhead, if_neg n1, if_neg n2, if_neg n3, if_neg n4, if_neg n5]
    · intro c hc hname
      rw [hrun, lookup_commands, hhead, hname]
      simp only [commands, List.mem_cons, List.mem_singleton, List.not_mem_nil, or_false] at hc
      rcases hc with h | h | h | h | h <;> subst h
      · rw [if_pos (by decide)]
      · rw [if_neg (by decide), if_pos (by decide)]
      · rw [if_neg (by decide), if_neg (by decide), if_pos (by decide)]
      · rw [if_neg (by decide), if_neg (by decide), if_neg (by decide), if_pos (by decide)]
      · rw [if_neg (by decide), if_neg (by decide), if_neg (by decide), if_neg (by decide),
          if_pos (by decide)]

/-- Witness of C17: the line `showmappings 0x1000 0x2000`. -/
theorem runcmd_dispatch_witness :
    tokens "showmappings 0x1000 0x2000".toList = showmappingsArgv "0x1000" "0x2000" ∧
    commands.map (fun c => c.name) =
      ["help".toList, "kerninfo".toList, "showmappings".toList, "modify".toList,
       "dump".toList] ∧
    ((∀ c ∈ "showmappings 0x1000 0x2000".toList, isWhitespace c = true) →
      runcmd "showmappings 0x1000 0x2000".toList machineOnePage =
        some ⟨0, [], machineOnePage.kern_pgdir⟩) ∧
    (∀ tok, (tokens "showmappings 0x1000 0x2000".toList).head? = some tok →
      ((∀ c ∈ commands, tok ≠ c.name) →
        runcmd "showmappings 0x1000 0x2000".toList machineOnePage =
          some ⟨0, [cprintf "Unknown command '%s'\n" [FmtArg.str tok]],
            machineOnePage.kern_pgdir⟩) ∧
      (∀ c ∈ commands, tok = c.name →
        runcmd "showmappings 0x1000 0x2000".toList machineOnePage =
          c.func (tokens "showmappings 0x1000 0x2000".toList).length
            (tokens "showmappings 0x1000 0x2000".toList) machineOnePage)) :=
  ⟨by decide,
    runcmd_dispatch "showmappings 0x1000 0x2000".toList machineOnePage (by decide) (by decide)⟩

/-- C20: for every line with at most 15 tokens, the parsing loop of `runcmd`
ends with the argument vector equal to the sequence, in order, of the maximal
runs of non-whitespace characters of the line (whitespace being tab, carriage
return, newline and space); every argument is non-empty and free of
whitespace; `runcmd` returns 0 without a handler when there is no token, and
otherwise looks the vector up in the table, where the function of the
matching entry receives the number of runs as `argc` and the whole vector. For
every line with 16 tokens or more, the loop gives up and `runcmd` returns 0
after the Too many arguments message, leaving the page directory as it is. -/
theorem runcmd_argument_vector (buf : List Char) (m : Machine) :
    ((tokens buf).length ≤ 15 →
      parseArgs (buf.length + 1) buf [] = some (ParseResult.args (tokens buf)) ∧
      (∀ t ∈ tokens buf, t ≠ [] ∧ ∀ c ∈ t, c ∈ buf ∧ isWhitespace c = false) ∧
      runcmd buf m =
        (if (tokens buf).length = 0 then some ⟨0, [], m.kern_pgdir⟩
         else lookup m (tokens buf) commands) ∧
      (∀ (c : Command) (cs : List Command),
        lookup m (tokens buf) (c :: cs) =
          if strcmp ((tokens buf).headD []) c.name = 0
          then c.func (tokens buf).length (tokens buf) m
          else lookup m (tokens buf) cs)) ∧
    (16 ≤ (tokens buf).length →
      parseArgs (buf.length + 1) buf [] = some ParseResult.tooMany ∧
      runcmd buf m =
        some ⟨0, [cprintf "Too many arguments (max %d)\n" [FmtArg.num MAXARGS]],
          m.kern_pgdir⟩) := by
  constructor
  · intro h
    refine ⟨?_, fun t ht => tokens_pieces buf t ht, ?_, fun _ _ => rfl⟩
    · rw [parseArgs_line, if_pos h]
    · rw [runcmd_tokens, if_pos h]
  · intro h
    have hn : ¬ (tokens buf).length ≤ 15 := by omega
    constructor
    · rw [parseArgs_line, if_neg hn]
    · rw [runcmd_tokens, if_neg hn]

/-- Witness of C20: a line of 15 tokens, and the same line with one more. -/
theorem runcmd_argument_vector_witness :
    (tokens " a b c d\te f g h i j k l m n  o\n".toList).map String.mk =
      ["a", "b", "c", "d", "e", "f", "g", "h", "i", "j", "k", "l", "m", "n", "o"] ∧
    (parseArgs (" a b c d\te f g h i j k l m n  o\n".toList.length + 1)
        " a b c d\te f g h i j k l m n  o\n".toList [] =
        some (ParseResult.args (tokens " a b c d\te f g h i j k l m n  o\n".toList)) ∧
      (∀ t ∈ tokens " a b c d\te f g h i j k l m n  o\n".toList,
        t ≠ [] ∧ ∀ c ∈ t, c ∈ " a b c d\te f g h i j k l m n  o\n".toList ∧
          isWhitespace c = false) ∧
      runcmd " a b c d\te f g h i j k l m n  o\n".toList machineOnePage =
        (if (tokens " a b c d\te f g h i j k l m n  o\n".toList).length = 0
         then some ⟨0, [], machineOnePage.kern_pgdir⟩
         else lookup machineOnePage (tokens " a b c d\te f g h i j k l m n  o\n".toList)
           commands) ∧
      (∀ (c : Command) (cs : List Command),
        lookup machineOnePage (tokens " a b c d\te f g h i j k l m n  o\n".toList) (c :: cs) =
          if strcmp ((tokens " a b c d\te f g h i j k l m n  o\n".toList).headD []) c.name = 0
          then c.func (tokens " a b c d\te f g h i j k l m n  o\n".toList).length
            (tokens " a b c d\te f g h i j k l m n  o\n".toList) machineOnePage
          else lookup machineOnePage (tokens " a b c d\te f g h i j k l m n  o\n".toList) cs)) ∧
    (parseArgs ("a b c d e f g h i j k l m n o p".toList.length + 1)
        "a b c d e f g h i j k l m n o p".toList [] = some ParseResult.tooMany ∧
      runcmd "a b c d e f g h i j k l m n o p".toList machineOnePage =
        some ⟨0, [cprintf "Too many arguments (max %d)\n" [FmtArg.num MAXARGS]],
          machineOnePage.kern_pgdir⟩) :=
  ⟨by decide,
    (runcmd_argument_vector " a b c d\te f g h i j k l m n  o\n".toList machineOnePage).1
      (by decide),
    (runcmd_argument_vector "a b c d e f g h i j k l m n o p".toList machineOnePage).2
      (by decide)⟩

end Monitor
